import Mathlib

/-!
Shallow embedding of the voxel-storage core of the Procedurking repository
(`src/VoxelCore.h`, `src/GodPowers.h` (WorldChunk/MaterialPalette implementation
part), `src/VoxelWorldManager.h` and its implementation file), together with
theorems settling the frozen claims about it.

Machine integers are modelled as `Nat`/`Int`; `uint8_t`/`int32_t` values that
the claims exercise stay far from their wrap-around points except where noted.
C++ `/` and `%` on `int32_t` are `Int.tdiv` / `Int.tmod` (truncation toward
zero, remainder with the sign of the dividend).
-/

namespace Procedurking

/-! ### Voxel (`src/VoxelCore.h`, struct Voxel) -/

/-- `struct Voxel`: materialID, health, flags, structuralSupport (each uint8_t). -/
structure Voxel where
  materialID : Nat
  health : Nat
  flags : Nat
  structuralSupport : Nat
deriving DecidableEq, Repr

/-- The two-argument constructor `Voxel(uint8_t mat, uint8_t hp = 255)`:
flags start at 0 and structuralSupport at 255. -/
def Voxel.make (mat hp : Nat) : Voxel := ⟨mat, hp, 0, 255⟩

/-- `MaterialPalette::AIR` = 0. -/
def AIR : Nat := 0

/-- `MaterialPalette::STONE` = 1. -/
def STONE : Nat := 1

/-- The function-local static `airVoxel(MaterialPalette::AIR, 0)` returned for
out-of-range or absent reads. -/
def airVoxel : Voxel := Voxel.make AIR 0

/-! ### Material and MaterialPalette (`src/VoxelCore.h` / `src/GodPowers.h`)

The claims about the palette concern only the number of stored materials and
that stored entries are preserved; `Material`'s physical constants are floats
that no claim inspects, so only the identifying `name` field is carried. -/

/-- `struct Material` (name field; float physical constants not modelled). -/
structure Material where
  name : String
deriving DecidableEq, Repr

/-- Error taxonomy of the palette (§7 of the spec): `ResourceExhausted` is the
`std::runtime_error` thrown by a full palette, `OutOfRange` the
`std::out_of_range` thrown by `getMaterial`. -/
inductive PaletteError where
  | ResourceExhausted
  | OutOfRange
deriving DecidableEq, Repr

/-- `class MaterialPalette`: a growable vector of materials. -/
structure MaterialPalette where
  materials : List Material
deriving DecidableEq, Repr

/-- `MaterialPalette::initializeStandardMaterials()`: the 13 standard materials
pushed in order (ids 0..12). -/
def initializeStandardMaterials : List Material :=
  [⟨"Air"⟩, ⟨"Stone"⟩, ⟨"Dirt"⟩, ⟨"Grass"⟩, ⟨"Sand"⟩, ⟨"Water"⟩, ⟨"Wood"⟩,
   ⟨"Metal"⟩, ⟨"Lava"⟩, ⟨"Ice"⟩, ⟨"Snow"⟩, ⟨"Coal"⟩, ⟨"Oil"⟩]

/-- `MaterialPalette::MaterialPalette()`. -/
def MaterialPalette.init : MaterialPalette := ⟨initializeStandardMaterials⟩

/-- `MaterialPalette::getMaterialCount()`. -/
def MaterialPalette.getMaterialCount (p : MaterialPalette) : Nat :=
  p.materials.length

/-- `MaterialPalette::addMaterial`: throws when `materials.size() >= 255`,
otherwise appends and returns the new id.  The C++ method mutates the palette
in place and throws before any mutation on failure; that is modelled by
returning the (unchanged on failure) palette alongside the thrown-or-returned
result. -/
def MaterialPalette.addMaterial (p : MaterialPalette) (m : Material) :
    Except PaletteError Nat × MaterialPalette :=
  if p.materials.length ≥ 255 then
    (Except.error PaletteError.ResourceExhausted, p)
  else
    (Except.ok (p.materials ++ [m]).length.pred, ⟨p.materials ++ [m]⟩)

/-- `MaterialPalette::getMaterial(id)`: throws `std::out_of_range` when
`id >= materials.size()`. -/
def MaterialPalette.getMaterial (p : MaterialPalette) (id : Nat) :
    Except PaletteError Material :=
  if h : id < p.materials.length then Except.ok (p.materials.get ⟨id, h⟩)
  else Except.error PaletteError.OutOfRange

/-- Palettes reachable through the public interface: the constructor, followed
by any sequence of `addMaterial` calls. -/
inductive MaterialPalette.Reachable : MaterialPalette → Prop where
  | init : MaterialPalette.Reachable MaterialPalette.init
  | add (p : MaterialPalette) (m : Material) (h : MaterialPalette.Reachable p) :
      MaterialPalette.Reachable (p.addMaterial m).2

/-! ### Positions (`src/VoxelCore.h`, VoxelPos / ChunkPos) -/

/-- `struct VoxelPos`: signed 3D integer coordinate (int32_t fields). -/
structure VoxelPos where
  x : Int
  y : Int
  z : Int
deriving DecidableEq, Repr

/-- `VoxelPos::operator+`. -/
def VoxelPos.add (a b : VoxelPos) : VoxelPos := ⟨a.x + b.x, a.y + b.y, a.z + b.z⟩

/-- `struct ChunkPos`: signed 3D integer coordinate in chunk units. -/
structure ChunkPos where
  x : Int
  y : Int
  z : Int
deriving DecidableEq, Repr

/-- `ChunkPos(const VoxelPos&, int32_t chunkSize)`: component-wise C++ `/`,
i.e. division truncated toward zero. -/
def ChunkPos.ofVoxel (p : VoxelPos) (chunkSize : Int) : ChunkPos :=
  ⟨Int.tdiv p.x chunkSize, Int.tdiv p.y chunkSize, Int.tdiv p.z chunkSize⟩

/-- `ChunkPos::toVoxelPos(chunkSize)`. -/
def ChunkPos.toVoxelPos (c : ChunkPos) (chunkSize : Int) : VoxelPos :=
  ⟨c.x * chunkSize, c.y * chunkSize, c.z * chunkSize⟩

/-- Component-wise floor division, following the spec's words
"`ChunkPos = floor(VoxelPos / chunkSize)` component-wise" (for comparison with
the code's `ChunkPos.ofVoxel`). -/
def specFloorChunkPos (p : VoxelPos) (chunkSize : Int) : ChunkPos :=
  ⟨Int.fdiv p.x chunkSize, Int.fdiv p.y chunkSize, Int.fdiv p.z chunkSize⟩

/-- Component-wise C++ `%` with the chunk size, as used by
`VoxelWorldManager::getVoxel/setVoxel` to form local coordinates. -/
def VoxelPos.modSize (p : VoxelPos) (chunkSize : Int) : VoxelPos :=
  ⟨Int.tmod p.x chunkSize, Int.tmod p.y chunkSize, Int.tmod p.z chunkSize⟩

/-! ### WorldChunk (`src/VoxelCore.h` declaration, `src/GodPowers.h` bodies) -/

/-- `WorldChunk::CHUNK_SIZE` = 64. -/
def CHUNK_SIZE : Int := 64

/-- `enum class WorldChunk::State` (underlying values 0..5 in declaration
order). -/
inductive CState where
  | UNLOADED
  | LOADING
  | ACTIVE
  | DIRTY_MESH
  | DIRTY_PHYSICS
  | DIRTY_STRUCTURE
deriving DecidableEq, Repr

/-- The underlying integer of the `State` enumerator (declaration order). -/
def CState.toNat : CState → Nat
  | .UNLOADED => 0
  | .LOADING => 1
  | .ACTIVE => 2
  | .DIRTY_MESH => 3
  | .DIRTY_PHYSICS => 4
  | .DIRTY_STRUCTURE => 5

/-- `class WorldChunk`.  The dense `std::array<Voxel, CHUNK_VOLUME>` is
modelled as a total function from flat index to voxel, the sparse
`std::unordered_map<VoxelPos, Voxel>` as a partial function from local
position to voxel; `unique_ptr`s that may be null become `Option`. -/
structure WorldChunk where
  position : ChunkPos
  state : CState
  denseStorage : Option (Int → Voxel)
  sparseStorage : Option (VoxelPos → Option Voxel)
  isDense : Bool

/-- `WorldChunk::WorldChunk(position)`: starts UNLOADED with empty sparse
storage. -/
def WorldChunk.make (pos : ChunkPos) : WorldChunk :=
  { position := pos
    state := .UNLOADED
    denseStorage := none
    sparseStorage := some (fun _ => none)
    isDense := false }

/-- `WorldChunk::isValidLocalPos`. -/
def WorldChunk.isValidLocalPos (p : VoxelPos) : Bool :=
  0 ≤ p.x && p.x < CHUNK_SIZE && 0 ≤ p.y && p.y < CHUNK_SIZE &&
  0 ≤ p.z && p.z < CHUNK_SIZE

/-- `WorldChunk::getIndex`: `x + y*CHUNK_SIZE + z*CHUNK_SIZE*CHUNK_SIZE`. -/
def WorldChunk.getIndex (p : VoxelPos) : Int :=
  p.x + p.y * CHUNK_SIZE + p.z * CHUNK_SIZE * CHUNK_SIZE

/-- `WorldChunk::getVoxel`: air sentinel for out-of-range or absent
positions. -/
def WorldChunk.getVoxel (c : WorldChunk) (p : VoxelPos) : Voxel :=
  if ¬ WorldChunk.isValidLocalPos p then airVoxel
  else if c.isDense then
    match c.denseStorage with
    | some d => d (WorldChunk.getIndex p)
    | none =>
      match c.sparseStorage with
      | some s => (s p).getD airVoxel
      | none => airVoxel
  else
    match c.sparseStorage with
    | some s => (s p).getD airVoxel
    | none => airVoxel

/-- The sparse branch of `WorldChunk::setVoxel`: erase on Air, otherwise
`operator[]` assignment. -/
def sparseWrite (s : VoxelPos → Option Voxel) (p : VoxelPos) (v : Voxel) :
    VoxelPos → Option Voxel :=
  if v.materialID = AIR then fun q => if q = p then none else s q
  else fun q => if q = p then some v else s q

/-- The dense branch of `WorldChunk::setVoxel`: array store at the flat
index. -/
def denseWrite (d : Int → Voxel) (i : Int) (v : Voxel) : Int → Voxel :=
  fun j => if j = i then v else d j

/-- `WorldChunk::setVoxel`: bounds-guarded write; sparse storage drops Air
voxels; a write while `ACTIVE` moves the state to `DIRTY_MESH`. -/
def WorldChunk.setVoxel (c : WorldChunk) (p : VoxelPos) (v : Voxel) : WorldChunk :=
  if ¬ WorldChunk.isValidLocalPos p then c
  else
    let c1 :=
      if c.isDense then
        match c.denseStorage with
        | some d =>
          { c with denseStorage := some (denseWrite d (WorldChunk.getIndex p) v) }
        | none =>
          match c.sparseStorage with
          | some s => { c with sparseStorage := some (sparseWrite s p v) }
          | none => c
      else
        match c.sparseStorage with
        | some s => { c with sparseStorage := some (sparseWrite s p v) }
        | none => c
    if c1.state = CState.ACTIVE then { c1 with state := .DIRTY_MESH } else c1

/-- `WorldChunk::hasVoxel`. -/
def WorldChunk.hasVoxel (c : WorldChunk) (p : VoxelPos) : Bool :=
  (c.getVoxel p).materialID ≠ AIR

/-- `WorldChunk::setState`. -/
def WorldChunk.setState (c : WorldChunk) (s : CState) : WorldChunk :=
  { c with state := s }

/-- `WorldChunk::isDirty`: `state >= State::DIRTY_MESH`. -/
def WorldChunk.isDirty (c : WorldChunk) : Bool :=
  c.state.toNat ≥ CState.DIRTY_MESH.toNat

/-- `WorldChunk::needsMeshUpdate`:
`state == DIRTY_MESH || state == DIRTY_PHYSICS`. -/
def WorldChunk.needsMeshUpdate (c : WorldChunk) : Bool :=
  c.state = CState.DIRTY_MESH || c.state = CState.DIRTY_PHYSICS

/-- `WorldChunk::needsPhysicsUpdate`:
`state == DIRTY_PHYSICS || state == DIRTY_STRUCTURE`. -/
def WorldChunk.needsPhysicsUpdate (c : WorldChunk) : Bool :=
  c.state = CState.DIRTY_PHYSICS || c.state = CState.DIRTY_STRUCTURE

/-- `WorldChunk::needsStructuralAnalysis`: `state == DIRTY_STRUCTURE`. -/
def WorldChunk.needsStructuralAnalysis (c : WorldChunk) : Bool :=
  c.state = CState.DIRTY_STRUCTURE

/-- The two storage configurations a chunk can be in: dense (array allocated,
map freed) or sparse (map allocated, array freed), as established by the
constructor and maintained by `compress`/`decompress`. -/
def WorldChunk.WellFormed (c : WorldChunk) : Prop :=
  (c.isDense = true ∧ c.denseStorage.isSome ∧ c.sparseStorage = none) ∨
  (c.isDense = false ∧ c.denseStorage = none ∧ c.sparseStorage.isSome)

/-! ### SparseVoxelOctree (`src/VoxelWorldManager.h` declaration, implementation
file `SparseVoxelOctree::*`)

`struct SVONode` owns up to 8 children through
`std::unique_ptr<std::array<std::unique_ptr<SVONode>, 8>>`; the outer pointer
becomes `Option (List (Option SVONode))` (the list always of length 8 in
reachable states).  The `level` field is stored (uint8_t, written by
`createChild` as `level - 1`) but read by none of the modelled operations. -/

/-- `struct SVONode`. Field order follows the declaration: childMask,
materialID, level, isLeaf, isUniform, children. -/
inductive SVONode : Type where
  | mk (childMask : Nat) (materialID : Nat) (level : Nat)
       (isLeaf : Bool) (isUniform : Bool)
       (children : Option (List (Option SVONode))) : SVONode

def SVONode.childMask : SVONode → Nat | .mk m _ _ _ _ _ => m

def SVONode.materialID : SVONode → Nat | .mk _ mat _ _ _ _ => mat

def SVONode.level : SVONode → Nat | .mk _ _ l _ _ _ => l

def SVONode.isLeaf : SVONode → Bool | .mk _ _ _ lf _ _ => lf

def SVONode.isUniform : SVONode → Bool | .mk _ _ _ _ u _ => u

def SVONode.children : SVONode → Option (List (Option SVONode))
  | .mk _ _ _ _ _ ch => ch

/-- `SVONode(uint8_t lvl)`: fresh uniform leaf with mask 0 and material 0. -/
def SVONode.fresh (lvl : Nat) : SVONode := .mk 0 0 lvl true true none

/-- `SVONode::hasChild(index)`: `(childMask & (1 << index)) != 0`. -/
def SVONode.hasChild (n : SVONode) (i : Nat) : Bool :=
  (n.childMask &&& (1 <<< i)) ≠ 0

/-- Read slot `i` of a child array (null slot and out-of-range both give
`none`). -/
def slotGet (t : List (Option SVONode)) (i : Nat) : Option SVONode :=
  (t[i]?).join

/-- `SVONode::getChild(index)`: null unless the mask bit is set and the child
array exists. -/
def SVONode.getChild (n : SVONode) (i : Nat) : Option SVONode :=
  if n.hasChild i then
    match n.children with
    | some t => slotGet t i
    | none => none
  else none

/-- `SVONode::createChild(index)`: allocates the child array if absent, stores
a fresh node of level `level - 1` (uint8_t wrap-around at 0) in slot `index`,
and sets the mask bit. -/
def SVONode.createChild (n : SVONode) (i : Nat) : SVONode :=
  match n with
  | .mk m mat lvl lf u ch =>
    let t := ch.getD (List.replicate 8 none)
    .mk (m ||| (1 <<< i)) mat lvl lf u
        (some (t.set i (some (SVONode.fresh ((lvl + 255) % 256)))))

/-- The leaf-to-internal conversion inside `findNode` with `createPath`:
`isLeaf = false; children = fresh all-null array` (mask and material kept). -/
def SVONode.convertToInternal (n : SVONode) : SVONode :=
  match n with
  | .mk m mat lvl _ u _ => .mk m mat lvl false u (some (List.replicate 8 none))

/-- The mutation `setVoxel` performs at the node `findNode` returned:
`if (node->isLeaf) { materialID = mat; isUniform = true; }`. -/
def SVONode.mutLeaf (n : SVONode) (mat : Nat) : SVONode :=
  match n with
  | .mk m _ lvl true _ ch => .mk m mat lvl true true ch
  | other => other

/-- `class SparseVoxelOctree`: root node, maxDepth, worldSize = 1 << maxDepth.
`maxDepth` is an `int32_t` used only as the (non-negative, 20 in this program)
descent count, so it is carried as a `Nat`. -/
structure SparseVoxelOctree where
  root : SVONode
  maxDepth : Nat
  worldSize : Int

/-- `SparseVoxelOctree(int32_t maxDepth)`. -/
def SparseVoxelOctree.init (maxDepth : Nat) : SparseVoxelOctree :=
  { root := SVONode.fresh (maxDepth % 256)
    maxDepth := maxDepth
    worldSize := (2 : Int) ^ maxDepth }

/-- `SparseVoxelOctree::getNodeSize(level)`: `1 << level`. -/
def SparseVoxelOctree.getNodeSize (level : Nat) : Int := (2 : Int) ^ level

/-- `SparseVoxelOctree::getChildIndex(pos, level)`: compares the absolute
coordinates against `getNodeSize(level - 1)`. -/
def getChildIndex (pos : VoxelPos) (level : Nat) : Nat :=
  (if pos.x ≥ SparseVoxelOctree.getNodeSize (level - 1) then 1 else 0) +
  (if pos.y ≥ SparseVoxelOctree.getNodeSize (level - 1) then 2 else 0) +
  (if pos.z ≥ SparseVoxelOctree.getNodeSize (level - 1) then 4 else 0)

/-- The read-only descent loop of `findNode(pos)` (no path creation), running
`level` from its current value down to 1; `level = 0` is the loop exit. -/
def findGo (cix : Nat → Nat) : Nat → SVONode → Option SVONode
  | 0, n => some n
  | level + 1, n =>
    if n.isLeaf then some n
    else
      match n.getChild (cix (level + 1)) with
      | none => none
      | some c => findGo cix level c

/-- `SparseVoxelOctree::findNode(pos)` (const overload). -/
def SparseVoxelOctree.findNode (s : SparseVoxelOctree) (pos : VoxelPos) :
    Option SVONode :=
  findGo (getChildIndex pos) s.maxDepth s.root

/-- Helper: replace slot `i` of a child list. -/
def slotSet (t : List (Option SVONode)) (i : Nat) (c : Option SVONode) :
    List (Option SVONode) :=
  t.set i c

/-- The path-creating descent of `findNode(pos, true)` combined with the
mutation `setVoxel` applies at the node it returns.  The walk converts leaves
to internal nodes above the bottom (`level > 1`), creates missing children,
and rebuilds the tree along the path; per the C++ control flow, when
`getChild` still yields null after the create step the walk stops and the
target mutation is skipped (node structure changes made so far persist). -/
def setGo (cix : Nat → Nat) (mat : Nat) : Nat → SVONode → SVONode
  | 0, n => n.mutLeaf mat
  | level + 1, n =>
    let n1 := if n.isLeaf ∧ level + 1 > 1 then n.convertToInternal else n
    if n1.isLeaf then n1.mutLeaf mat
    else
      let ci := cix (level + 1)
      let n2 := if n1.hasChild ci then n1 else n1.createChild ci
      match n2.getChild ci with
      | none => n2
      | some c =>
        match n2 with
        | .mk m mt lvl lf u ch =>
          .mk m mt lvl lf u
            (some (slotSet (ch.getD (List.replicate 8 none)) ci
              (some (setGo cix mat level c))))

/-- `SparseVoxelOctree::getVoxel`: a uniform leaf on the path answers with its
material at full health; otherwise Air at zero health. -/
def SparseVoxelOctree.getVoxel (s : SparseVoxelOctree) (pos : VoxelPos) : Voxel :=
  match s.findNode pos with
  | none => Voxel.make AIR 0
  | some n =>
    if n.isLeaf ∧ n.isUniform then Voxel.make n.materialID 255
    else Voxel.make AIR 0

/-- `SparseVoxelOctree::setVoxel`: silent drop of out-of-`[0, worldSize)`
writes, then path-creating descent and leaf mutation. -/
def SparseVoxelOctree.setVoxel (s : SparseVoxelOctree) (pos : VoxelPos)
    (v : Voxel) : SparseVoxelOctree :=
  if pos.x < 0 ∨ pos.x ≥ s.worldSize ∨ pos.y < 0 ∨ pos.y ≥ s.worldSize ∨
     pos.z < 0 ∨ pos.z ≥ s.worldSize then s
  else
    { s with root := setGo (getChildIndex pos) v.materialID s.maxDepth s.root }

/-- `SparseVoxelOctree::hasVoxel`. -/
def SparseVoxelOctree.hasVoxel (s : SparseVoxelOctree) (pos : VoxelPos) : Bool :=
  (s.getVoxel pos).materialID ≠ AIR

/-- `SparseVoxelOctree::storeChunkData`: writes every local position of the
64³ chunk (x outer, z inner) into the octree at the chunk origin offset. -/
def SparseVoxelOctree.storeChunkData (s : SparseVoxelOctree) (chunkPos : ChunkPos)
    (chunk : WorldChunk) : SparseVoxelOctree :=
  let origin := chunkPos.toVoxelPos CHUNK_SIZE
  (List.range 64).foldl (fun sx (x : Nat) =>
    (List.range 64).foldl (fun sy (y : Nat) =>
      (List.range 64).foldl (fun sz (z : Nat) =>
        let localPos : VoxelPos := ⟨(x : Int), (y : Int), (z : Int)⟩
        let worldPos : VoxelPos := ⟨origin.x + x, origin.y + y, origin.z + z⟩
        sz.setVoxel worldPos (chunk.getVoxel localPos)) sy) sx) s

/-- `SparseVoxelOctree::loadChunkData`: reads every octree voxel of the chunk's
64³ region and stores the non-Air ones into the chunk at local coordinates. -/
def SparseVoxelOctree.loadChunkData (s : SparseVoxelOctree) (chunkPos : ChunkPos)
    (chunk : WorldChunk) : WorldChunk :=
  let origin := chunkPos.toVoxelPos CHUNK_SIZE
  (List.range 64).foldl (fun cx (x : Nat) =>
    (List.range 64).foldl (fun cy (y : Nat) =>
      (List.range 64).foldl (fun cz (z : Nat) =>
        let worldPos : VoxelPos := ⟨origin.x + x, origin.y + y, origin.z + z⟩
        let v := s.getVoxel worldPos
        if v.materialID ≠ AIR then cz.setVoxel ⟨(x : Int), (y : Int), (z : Int)⟩ v
        else cz) cy) cx) chunk

/-- The scanning loop of `SparseVoxelOctree::canMergeNode`: walks the 8 slots
tracking the first material seen; any present child that is missing, not a
leaf, not uniform, or of a different material fails the check; the check
succeeds only if some present child was seen. -/
def canMergeLoop (mask : Nat) : Nat → List (Option SVONode) →
    Option Nat → Bool
  | _, [], first => first.isSome
  | i, slot :: rest, first =>
    if (mask &&& (1 <<< i)) ≠ 0 then
      match slot with
      | none => false
      | some c =>
        if ¬ c.isLeaf ∨ ¬ c.isUniform then false
        else
          match first with
          | none => canMergeLoop mask (i + 1) rest (some c.materialID)
          | some fm =>
            if c.materialID ≠ fm then false
            else canMergeLoop mask (i + 1) rest (some fm)
    else canMergeLoop mask (i + 1) rest first

/-- `SparseVoxelOctree::canMergeNode`. -/
def canMergeNode (n : SVONode) : Bool :=
  if n.isLeaf then false
  else
    match n.children with
    | none => false
    | some t => canMergeLoop n.childMask 0 t none

/-- The material-extraction loop in `mergeUniformChildren`: first child that
has its mask bit set and is gettable supplies the uniform material (default
Air). -/
def firstChildMaterial (mask : Nat) : Nat → List (Option SVONode) → Nat
  | _, [] => AIR
  | i, slot :: rest =>
    if (mask &&& (1 <<< i)) ≠ 0 then
      match slot with
      | none => firstChildMaterial mask (i + 1) rest
      | some c => c.materialID
    else firstChildMaterial mask (i + 1) rest

mutual

/-- `SparseVoxelOctree::mergeUniformChildren`: recursively merges in the
children, then collapses this node to a uniform leaf when `canMergeNode`
holds (children freed, mask cleared). -/
def mergeUniformChildren (n : SVONode) : SVONode :=
  match n with
  | .mk m mat lvl true u ch => .mk m mat lvl true u ch
  | .mk m mat lvl false u none =>
    -- no child array: canMergeNode is false, node unchanged
    .mk m mat lvl false u none
  | .mk m mat lvl false u (some t) =>
    let merged : SVONode := .mk m mat lvl false u (some (mergeSlots m 0 t))
    if canMergeNode merged then
      .mk 0 (firstChildMaterial merged.childMask 0
              ((merged.children).getD (List.replicate 8 none)))
        lvl true true none
    else merged

/-- The recursion of `mergeUniformChildren` over the child slots (only slots
whose mask bit is set and which are non-null are recursed into, matching the
`hasChild`/`getChild` guards). -/
def mergeSlots (mask : Nat) (i : Nat) : List (Option SVONode) →
    List (Option SVONode)
  | [] => []
  | none :: rest => none :: mergeSlots mask (i + 1) rest
  | some c :: rest =>
    (if (mask &&& (1 <<< i)) ≠ 0 then some (mergeUniformChildren c)
     else some c) :: mergeSlots mask (i + 1) rest

end

/-- `SparseVoxelOctree::compress()`: merge pass from the root. -/
def SparseVoxelOctree.compress (s : SparseVoxelOctree) : SparseVoxelOctree :=
  { s with root := mergeUniformChildren s.root }

/-- `SparseVoxelOctree::optimize()`: calls `compress()`. -/
def SparseVoxelOctree.optimize (s : SparseVoxelOctree) : SparseVoxelOctree :=
  s.compress

/-- `SparseVoxelOctree::getNodeCount()`: the source returns the hard-coded
placeholder 1000 ("Simplified - would need recursive traversal for accurate
count"). -/
def SparseVoxelOctree.getNodeCount (_ : SparseVoxelOctree) : Nat := 1000

mutual

/-- Auxiliary (not in the source): the actual number of allocated `SVONode`
objects in a subtree, i.e. what `getNodeCount` is documented to count but does
not (its body is a placeholder). -/
def allocatedNodeCount (n : SVONode) : Nat :=
  match n with
  | .mk _ _ _ _ _ none => 1
  | .mk _ _ _ _ _ (some t) => 1 + allocatedSlotCount t

/-- Auxiliary: allocated nodes held in a child slot list. -/
def allocatedSlotCount : List (Option SVONode) → Nat
  | [] => 0
  | none :: rest => allocatedSlotCount rest
  | some c :: rest => allocatedNodeCount c + allocatedSlotCount rest

end

/-! ### VoxelWorldManager (`src/VoxelWorldManager.h`, implementation file)

The manager's operations are modelled as sequential state transformers: the
mutex/condition-variable plumbing serializes them in the C++ code, and the
worker-thread body (`chunkLoadingWorker`) is modelled as an explicit step that
services the front task of the queue.  `std::shared_ptr<WorldChunk>` aliasing
matters to the claims (a queued load task keeps its chunk alive after
eviction), so chunks live in an id-indexed heap; the active table and the
tasks hold ids. -/

/-- `ChunkLoadTask::Priority`. -/
inductive Priority where
  | LOW
  | NORMAL
  | HIGH
  | URGENT
deriving DecidableEq, Repr

/-- `struct ChunkLoadTask` (the `std::promise<bool>` is not observed by any
claim and is omitted). -/
structure ChunkLoadTask where
  position : ChunkPos
  chunkId : Nat
  priority : Priority
deriving DecidableEq, Repr

/-- `class VoxelWorldManager` state: SVO backing store, active table, FIFO
`std::queue<ChunkLoadTask>`, and the heap of live chunk objects. -/
structure ManagerState where
  nextId : Nat
  chunkHeap : List (Nat × WorldChunk)
  activeChunks : List (ChunkPos × Nat)
  loadingQueue : List ChunkLoadTask
  svoStorage : SparseVoxelOctree

/-- `VoxelWorldManager::VoxelWorldManager`: creates the SVO with 20 levels and
an empty active table and queue. -/
def ManagerState.init : ManagerState :=
  { nextId := 0
    chunkHeap := []
    activeChunks := []
    loadingQueue := []
    svoStorage := SparseVoxelOctree.init 20 }

/-- Association-list lookup used for both the heap and the active table. -/
def assocFind {α β : Type} [DecidableEq α] : List (α × β) → α → Option β
  | [], _ => none
  | (k, v) :: rest, key => if key = k then some v else assocFind rest key

/-- Association-list in-place update (first occurrence). -/
def assocSet {α β : Type} [DecidableEq α] : List (α × β) → α → β → List (α × β)
  | [], _, _ => []
  | (k, v) :: rest, key, w =>
    if key = k then (k, w) :: rest else (k, v) :: assocSet rest key w

/-- Association-list erase (first occurrence), i.e. `unordered_map::erase`. -/
def assocErase {α β : Type} [DecidableEq α] : List (α × β) → α → List (α × β)
  | [], _ => []
  | (k, v) :: rest, key =>
    if key = k then rest else (k, v) :: assocErase rest key

/-- The chunk object (if any) the active table maps `pos` to, i.e. what
`VoxelWorldManager::getChunk` returns. -/
def ManagerState.getChunk (st : ManagerState) (pos : ChunkPos) :
    Option WorldChunk :=
  match assocFind st.activeChunks pos with
  | none => none
  | some id => assocFind st.chunkHeap id

/-- `VoxelWorldManager::createChunk`: `make_shared<WorldChunk>(pos)`, modelled
as allocating a fresh heap id. -/
def ManagerState.createChunk (st : ManagerState) (pos : ChunkPos) :
    Nat × ManagerState :=
  (st.nextId,
   { st with
      nextId := st.nextId + 1
      chunkHeap := st.chunkHeap ++ [(st.nextId, WorldChunk.make pos)] })

/-- `VoxelWorldManager::loadChunk(pos, priority)`: no-op when the position is
already in the active table; otherwise construct an empty chunk, insert it
into the table, and push a load task onto the queue. -/
def ManagerState.loadChunk (st : ManagerState) (pos : ChunkPos)
    (priority : Priority) : ManagerState :=
  match assocFind st.activeChunks pos with
  | some _ => st
  | none =>
    let (id, st1) := st.createChunk pos
    { st1 with
        activeChunks := st1.activeChunks ++ [(pos, id)]
        loadingQueue := st1.loadingQueue ++ [⟨pos, id, priority⟩] }

/-- `VoxelWorldManager::unloadChunk(pos)`: flush the chunk to the SVO via
`storeChunkData`, then erase the table entry (the heap object stays alive
while a queued task still references it, mirroring `shared_ptr`). -/
def ManagerState.unloadChunk (st : ManagerState) (pos : ChunkPos) : ManagerState :=
  match assocFind st.activeChunks pos with
  | none => st
  | some id =>
    match assocFind st.chunkHeap id with
    | none => st
    | some chunk =>
      { st with
          svoStorage := st.svoStorage.storeChunkData pos chunk
          activeChunks := assocErase st.activeChunks pos }

/-- `VoxelWorldManager::markChunkDirty`: raise the chunk's state to
`dirtyType` if it is currently lower. -/
def ManagerState.markChunkDirty (st : ManagerState) (pos : ChunkPos)
    (dirtyType : CState) : ManagerState :=
  match assocFind st.activeChunks pos with
  | none => st
  | some id =>
    match assocFind st.chunkHeap id with
    | none => st
    | some chunk =>
      if chunk.state.toNat < dirtyType.toNat then
        { st with chunkHeap := assocSet st.chunkHeap id (chunk.setState dirtyType) }
      else st

/-- `VoxelWorldManager::getVoxel(pos)`: resolve the owning chunk with the
truncating `ChunkPos` constructor, delegate with `pos % CHUNK_SIZE` local
coordinates; Air when the chunk is not resident. -/
def ManagerState.getVoxel (st : ManagerState) (pos : VoxelPos) : Voxel :=
  let chunkPos := ChunkPos.ofVoxel pos CHUNK_SIZE
  match st.getChunk chunkPos with
  | none => Voxel.make AIR 0
  | some chunk => chunk.getVoxel (pos.modSize CHUNK_SIZE)

/-- `VoxelWorldManager::setVoxel(pos, voxel)`: force-load the owning chunk
with URGENT priority if absent, write through `WorldChunk::setVoxel`, then
`markChunkDirty(chunkPos, DIRTY_MESH)`. -/
def ManagerState.setVoxel (st : ManagerState) (pos : VoxelPos) (v : Voxel) :
    ManagerState :=
  let chunkPos := ChunkPos.ofVoxel pos CHUNK_SIZE
  let st1 :=
    match assocFind st.activeChunks chunkPos with
    | some _ => st
    | none => st.loadChunk chunkPos Priority.URGENT
  match assocFind st1.activeChunks chunkPos with
  | none => st1
  | some id =>
    match assocFind st1.chunkHeap id with
    | none => st1
    | some chunk =>
      let localPos := pos.modSize CHUNK_SIZE
      let st2 := { st1 with
        chunkHeap := assocSet st1.chunkHeap id (chunk.setVoxel localPos v) }
      st2.markChunkDirty chunkPos CState.DIRTY_MESH

/-- One pass of the `chunkLoadingWorker` body on a non-empty queue: pop the
front task (FIFO `std::queue`), materialize the task's chunk from the SVO
(`loadChunkFromSVO` = `loadChunkData`), and set its state to `ACTIVE`. -/
def ManagerState.workerStep (st : ManagerState) : ManagerState :=
  match st.loadingQueue with
  | [] => st
  | task :: rest =>
    let st1 := { st with loadingQueue := rest }
    match assocFind st1.chunkHeap task.chunkId with
    | none => st1
    | some chunk =>
      let loaded := (st1.svoStorage.loadChunkData task.position chunk).setState
        CState.ACTIVE
      { st1 with chunkHeap := assocSet st1.chunkHeap task.chunkId loaded }

/-- The task the worker will service next together with the remaining state:
the front of the FIFO queue. -/
def ManagerState.dequeueTask (st : ManagerState) :
    Option (ChunkLoadTask × ManagerState) :=
  match st.loadingQueue with
  | [] => none
  | task :: rest => some (task, { st with loadingQueue := rest })

/-! ### Verification infrastructure

The octree descent (`findGo`/`setGo`) touches child indices level by level;
for the proofs each position is abstracted to the list of child indices its
descent uses (levels `maxDepth` down to 2 — the node reached after the
level-2 step is the leaf the walk stops at), and a tree is related to a
finite map from such index paths to stored materials. -/

/-- Point update of a path-indexed material map. -/
def updKey (f : List Nat → Option Nat) (k : List Nat) (m : Nat) :
    List Nat → Option Nat :=
  fun k2 => if k2 = k then some m else f k2

/-- The child indices a descent starting at `level` consumes (levels
`level, level - 1, ..., 2`). -/
def pathFrom (cix : Nat → Nat) : Nat → List Nat
  | 0 => []
  | 1 => []
  | l + 2 => cix (l + 2) :: pathFrom cix (l + 1)

/-- The index path of a position for the 20-level octree of this program. -/
def path19 (pos : VoxelPos) : List Nat :=
  pathFrom (getChildIndex pos) 20

/-- How `SparseVoxelOctree::getVoxel` turns a `findNode` result into a
voxel. -/
def voxelOfFind : Option SVONode → Voxel
  | none => Voxel.make AIR 0
  | some n =>
    if n.isLeaf ∧ n.isUniform then Voxel.make n.materialID 255
    else Voxel.make AIR 0

/-- A node that is exactly a freshly constructed leaf (any `level`). -/
def freshLeafLike (n : SVONode) : Prop :=
  n.isLeaf = true ∧ n.isUniform = true ∧ n.materialID = 0 ∧
  n.childMask = 0 ∧ n.children = none

/-- `Models lv n f`: the subtree `n`, entered with `lv` descent steps
remaining, stores exactly the materials of the map `f` (keys are the index
paths of the remaining descent).  An empty map corresponds to an untouched
fresh leaf; a populated map at the bottom (`lv = 1`) to a mutated leaf; a
populated map higher up to an internal node whose child slots mirror the
partition of the map by leading index. -/
def Models : Nat → SVONode → (List Nat → Option Nat) → Prop
  | 0, _, _ => True
  | 1, n, f =>
    (f [] = none → freshLeafLike n) ∧
    (∀ m, f [] = some m →
      n.isLeaf = true ∧ n.isUniform = true ∧ n.materialID = m ∧
      n.childMask = 0 ∧ n.children = none)
  | l + 2, n, f =>
    ((∀ k, f k = none) → freshLeafLike n) ∧
    ((∃ k, (f k).isSome) →
      n.isLeaf = false ∧
      ∃ t, n.children = some t ∧ t.length = 8 ∧
        ∀ i, i < 8 →
          ((∀ k, f (i :: k) = none) →
            slotGet t i = none ∧ n.hasChild i = false) ∧
          ((∃ k, (f (i :: k)).isSome) →
            ∃ c, slotGet t i = some c ∧ n.hasChild i = true ∧
              Models (l + 1) c (fun k => f (i :: k))))

/-- A 20-level octree state together with the material map its tree
stores. -/
def Sim (s : SparseVoxelOctree) (f : List Nat → Option Nat) : Prop :=
  s.maxDepth = 20 ∧ s.worldSize = (2 : Int) ^ 20 ∧ Models 20 s.root f

/-- One inner `z` row of the chunk iteration. -/
def zRow (x y : Nat) : List VoxelPos :=
  (List.range 64).map fun (z : Nat) => ⟨(x : Int), (y : Int), (z : Int)⟩

/-- One `x` slab of the chunk iteration. -/
def xyBlock (x : Nat) : List VoxelPos :=
  (List.range 64).flatMap fun y => zRow x y

/-- The 64³ local positions of a chunk in the iteration order of
`storeChunkData`/`loadChunkData` (x outer, y middle, z inner). -/
def chunkPositions : List VoxelPos :=
  (List.range 64).flatMap fun x => xyBlock x

/-- The index path every position of `{4,...,7}³` shares with `(5,5,5)`. -/
def pstar : List Nat := path19 ⟨5, 5, 5⟩

/-! #### Concrete scenario states

`evict*`: the eviction-durability scenario of the spec
(`setVoxel({5,5,5}, Voxel(STONE,255))`; `unloadChunk(ChunkPos(0,0,0))`;
`loadChunk(ChunkPos(0,0,0))`; both queued loads complete).
`mergeScn*`: a merge scenario populating all 8 children of one octree node
with uniform stone leaves. -/

def stoneVoxel : Voxel := Voxel.make STONE 255

def evict1 : ManagerState := ManagerState.init.setVoxel ⟨5, 5, 5⟩ stoneVoxel

/-- The chunk object holding the single stone voxel after the write (state
raised to `DIRTY_MESH` by `markChunkDirty`). -/
def chunk1 : WorldChunk :=
  ((WorldChunk.make ⟨0, 0, 0⟩).setVoxel ⟨5, 5, 5⟩ stoneVoxel).setState
    CState.DIRTY_MESH

def evict2 : ManagerState := evict1.unloadChunk ⟨0, 0, 0⟩

/-- The SVO contents after the eviction flush. -/
def svo2 : SparseVoxelOctree :=
  (SparseVoxelOctree.init 20).storeChunkData ⟨0, 0, 0⟩ chunk1

def evict3 : ManagerState := evict2.loadChunk ⟨0, 0, 0⟩ Priority.NORMAL

def evict4 : ManagerState := evict3.workerStep.workerStep

/-- The 8 positions whose writes populate all 8 children of one internal node
(they diverge exactly at the level-2 descent step). -/
def mergeScnPositions : List VoxelPos :=
  [⟨0, 0, 0⟩, ⟨2, 0, 0⟩, ⟨0, 2, 0⟩, ⟨2, 2, 0⟩,
   ⟨0, 0, 2⟩, ⟨2, 0, 2⟩, ⟨0, 2, 2⟩, ⟨2, 2, 2⟩]

/-- The octree after the 8 stone writes. -/
def mergeScnSVO : SparseVoxelOctree :=
  mergeScnPositions.foldl (fun s q => s.setVoxel q stoneVoxel)
    (SparseVoxelOctree.init 20)

/-- The map-level image of one `storeChunkData` write of the evicted
chunk. -/
def evictStep (f : List Nat → Option Nat) (q : VoxelPos) :
    List Nat → Option Nat :=
  updKey f (path19 q) ((chunk1.getVoxel q).materialID)

/-- The material map describing `svo2`. -/
def evictMap : List Nat → Option Nat :=
  chunkPositions.foldl evictStep (fun _ => none)

/-- The chunk object the first (orphaned) queued task holds after the first
worker pass. -/
def evictLoaded1 : WorldChunk :=
  (svo2.loadChunkData ⟨0, 0, 0⟩ chunk1).setState CState.ACTIVE

/-- The chunk object the reload materializes from the flushed SVO. -/
def evictLoaded2 : WorldChunk :=
  (svo2.loadChunkData ⟨0, 0, 0⟩ (WorldChunk.make ⟨0, 0, 0⟩)).setState
    CState.ACTIVE

/-! ## Helper lemmas -/

theorem and_shift_ne_iff (m i : Nat) :
    (m &&& (1 <<< i) ≠ 0) ↔ m.testBit i = true := by
  rw [Nat.shiftLeft_eq, one_mul, Nat.and_two_pow]
  cases h : m.testBit i <;> simp [h, Nat.pow_eq_zero]

theorem hasChild_eq (n : SVONode) (i : Nat) :
    n.hasChild i = n.childMask.testBit i := by
  unfold SVONode.hasChild
  rw [Bool.eq_iff_iff]
  simp [and_shift_ne_iff]

theorem slotGet_set_self (t : List (Option SVONode)) (i : Nat)
    (n : SVONode) (h : i < t.length) :
    slotGet (slotSet t i (some n)) i = some n := by
  unfold slotGet slotSet
  rw [List.getElem?_set_self h]
  rfl

theorem slotGet_set_ne (t : List (Option SVONode)) {i j : Nat}
    (c : Option SVONode) (h : i ≠ j) :
    slotGet (slotSet t i c) j = slotGet t j := by
  unfold slotGet slotSet
  rw [List.getElem?_set_ne h]

theorem slotGet_replicate (i : Nat) :
    slotGet (List.replicate 8 (none : Option SVONode)) i = none := by
  unfold slotGet
  rw [List.getElem?_replicate]
  split <;> rfl

theorem foldl_fixed {α β : Type} (f : α → β → α) (l : List β) (a : α)
    (h : ∀ acc b, b ∈ l → f acc b = acc) : l.foldl f a = a := by
  induction l generalizing a with
  | nil => rfl
  | cons x xs ih =>
    rw [List.foldl_cons, h a x (by simp)]
    exact ih a fun acc b hb => h acc b (by simp [hb])

theorem foldl_flatMap_eq {α β γ : Type} (f : β → γ → β) (g : α → List γ) :
    ∀ (l : List α) (init : β),
      (l.flatMap g).foldl f init =
        l.foldl (fun acc x => (g x).foldl f acc) init := by
  intro l
  induction l with
  | nil => intro init; rfl
  | cons x xs ih =>
    intro init
    rw [List.flatMap_cons, List.foldl_append, List.foldl_cons, ih]

theorem getChildIndex_lt8 (pos : VoxelPos) (l : Nat) :
    getChildIndex pos l < 8 := by
  unfold getChildIndex
  split_ifs <;> omega

/-! ## Claims about `WorldChunk` and `MaterialPalette` -/

/-- Counterexample for C2: the round-trip law fails as universally stated.
In the sparse representation (the constructor's initial one), writing an Air
voxel with non-default health erases the entry, and the subsequent read
returns the fixed Air sentinel `Voxel(AIR, 0)` instead of the written
value. -/
theorem chunk_roundtrip_counterexample :
    ((WorldChunk.make ⟨0, 0, 0⟩).setVoxel ⟨0, 0, 0⟩
        (⟨0, 200, 0, 255⟩ : Voxel)).getVoxel ⟨0, 0, 0⟩ = airVoxel ∧
    airVoxel ≠ (⟨0, 200, 0, 255⟩ : Voxel) := by
  constructor
  · rfl
  · decide

/-- C2 (amended): for every in-range position, `setVoxel` followed by
`getVoxel` returns the written voxel exactly (all four fields) whenever the
chunk is dense, or the chunk is sparse and the voxel is not Air; a sparse
Air write reads back as the Air sentinel instead. -/
theorem chunk_roundtrip (c : WorldChunk) (p : VoxelPos) (v : Voxel)
    (hwf : c.WellFormed) (hp : WorldChunk.isValidLocalPos p = true)
    (hv : c.isDense = true ∨ v.materialID ≠ AIR) :
    (c.setVoxel p v).getVoxel p = v := by
  rcases c with ⟨pos, st, dense, sparse, isDense⟩
  rcases hwf with ⟨hd, hds, hss⟩ | ⟨hd, hds, hss⟩
  · -- dense representation
    simp only at hd hss
    subst hd hss
    rcases Option.isSome_iff_exists.mp hds with ⟨d, hdd⟩
    simp only at hdd
    subst hdd
    by_cases hst : st = CState.ACTIVE <;>
      simp [WorldChunk.setVoxel, WorldChunk.getVoxel, hp, hst, denseWrite]
  · -- sparse representation
    simp only at hd hds
    subst hd hds
    rcases Option.isSome_iff_exists.mp hss with ⟨s, hs⟩
    simp only at hs
    subst hs
    rcases hv with hv | hv
    · simp at hv
    · by_cases hst : st = CState.ACTIVE <;>
        simp [WorldChunk.setVoxel, WorldChunk.getVoxel, hp, hst, sparseWrite, hv]

/-- Witness for `chunk_roundtrip` at a concrete sparse chunk and a stone
voxel. -/
theorem chunk_roundtrip_witness :
    ((WorldChunk.make ⟨0, 0, 0⟩).setVoxel ⟨1, 2, 3⟩ (Voxel.make STONE 255)).getVoxel
      ⟨1, 2, 3⟩ = Voxel.make STONE 255 :=
  chunk_roundtrip _ _ _ (Or.inr ⟨rfl, rfl, rfl⟩) (by decide) (Or.inr (by decide))

/-- Counterexample for C3: the dirty-level predicates are not monotone in the
state order — a chunk in `DIRTY_STRUCTURE` does not satisfy
`needsMeshUpdate` (the code tests `state == DIRTY_MESH || state ==
DIRTY_PHYSICS`), contradicting the claim that every higher dirty level
satisfies each lower-level predicate. -/
theorem dirty_predicates_counterexample :
    ((WorldChunk.make ⟨0, 0, 0⟩).setState CState.DIRTY_STRUCTURE).needsMeshUpdate
      = false ∧
    ((WorldChunk.make ⟨0, 0, 0⟩).setState CState.DIRTY_STRUCTURE).needsPhysicsUpdate
      = true := by
  constructor <;> rfl

/-- C3 (amended): the states form the strict chain `UNLOADED < LOADING <
ACTIVE < DIRTY_MESH < DIRTY_PHYSICS < DIRTY_STRUCTURE`; an in-range
`setVoxel` while `ACTIVE` moves the chunk to `DIRTY_MESH`; but the consumer
predicates are two-state windows, not order comparisons:
`needsMeshUpdate` holds exactly at `DIRTY_MESH`/`DIRTY_PHYSICS` (not at
`DIRTY_STRUCTURE`), `needsPhysicsUpdate` exactly at
`DIRTY_PHYSICS`/`DIRTY_STRUCTURE`, `needsStructuralAnalysis` exactly at
`DIRTY_STRUCTURE`; only `isDirty` compares against the order. -/
theorem dirty_levels (c : WorldChunk) (p : VoxelPos) (v : Voxel)
    (hp : WorldChunk.isValidLocalPos p = true)
    (hs : c.state = CState.ACTIVE) :
    (CState.UNLOADED.toNat < CState.LOADING.toNat ∧
     CState.LOADING.toNat < CState.ACTIVE.toNat ∧
     CState.ACTIVE.toNat < CState.DIRTY_MESH.toNat ∧
     CState.DIRTY_MESH.toNat < CState.DIRTY_PHYSICS.toNat ∧
     CState.DIRTY_PHYSICS.toNat < CState.DIRTY_STRUCTURE.toNat) ∧
    (c.setVoxel p v).state = CState.DIRTY_MESH ∧
    (∀ d : WorldChunk,
      (d.needsMeshUpdate = true ↔
        (d.state = CState.DIRTY_MESH ∨ d.state = CState.DIRTY_PHYSICS)) ∧
      (d.needsPhysicsUpdate = true ↔
        (d.state = CState.DIRTY_PHYSICS ∨ d.state = CState.DIRTY_STRUCTURE)) ∧
      (d.needsStructuralAnalysis = true ↔ d.state = CState.DIRTY_STRUCTURE) ∧
      (d.isDirty = true ↔ CState.DIRTY_MESH.toNat ≤ d.state.toNat)) := by
  refine ⟨by decide, ?_, ?_⟩
  · rcases c with ⟨pos, st, dense, sparse, isDense⟩
    simp only at hs
    subst hs
    rcases dense with _ | d <;> rcases sparse with _ | s <;>
      rcases isDense with _ | _ <;>
        simp [WorldChunk.setVoxel, hp]
  · intro d
    rcases d with ⟨pos, st, dense, sparse, isDense⟩
    cases st <;>
      simp [WorldChunk.needsMeshUpdate, WorldChunk.needsPhysicsUpdate,
        WorldChunk.needsStructuralAnalysis, WorldChunk.isDirty, CState.toNat]

/-- Witness for `dirty_levels` at a concrete active chunk. -/
theorem dirty_levels_witness :
    (((WorldChunk.make ⟨0, 0, 0⟩).setState CState.ACTIVE).setVoxel ⟨0, 0, 0⟩
        (Voxel.make STONE 255)).state = CState.DIRTY_MESH :=
  (dirty_levels ((WorldChunk.make ⟨0, 0, 0⟩).setState CState.ACTIVE) ⟨0, 0, 0⟩
    (Voxel.make STONE 255) (by decide) rfl).2.1

/-- C8: `addMaterial` fails with `ResourceExhausted` exactly on a full
palette and leaves it unchanged then.  Every palette reachable through the
constructor and `addMaterial` holds at most 255 materials; a call on a
palette holding 255 fails with `ResourceExhausted` returning the palette
unchanged (all stored materials preserved); a call on a palette holding
fewer than 255 appends the material and returns its id. -/
theorem palette_overflow :
    (∀ p : MaterialPalette, MaterialPalette.Reachable p →
      p.getMaterialCount ≤ 255) ∧
    (∀ (p : MaterialPalette) (m : Material), 255 ≤ p.getMaterialCount →
      p.addMaterial m = (Except.error PaletteError.ResourceExhausted, p)) ∧
    (∀ (p : MaterialPalette) (m : Material), p.getMaterialCount < 255 →
      (p.addMaterial m).2.materials = p.materials ++ [m] ∧
      (p.addMaterial m).1 = Except.ok p.getMaterialCount) := by
  refine ⟨?_, ?_, ?_⟩
  · intro p hp
    induction hp with
    | init => decide
    | add p m h ih =>
      by_cases hfull : p.materials.length ≥ 255
      · simpa [MaterialPalette.addMaterial, hfull] using ih
      · simp only [MaterialPalette.addMaterial, hfull, if_false]
        simp only [MaterialPalette.getMaterialCount] at ih ⊢
        simp only [List.length_append, List.length_cons, List.length_nil]
        omega
  · intro p m h
    simp [MaterialPalette.addMaterial, MaterialPalette.getMaterialCount] at h ⊢
    omega
  · intro p m h
    simp only [MaterialPalette.getMaterialCount] at h
    simp [MaterialPalette.addMaterial, Nat.not_le.mpr h,
      MaterialPalette.getMaterialCount]

/-- Witness for `palette_overflow`: the freshly constructed palette holds 13
materials and accepts a new one with id 13. -/
theorem palette_overflow_witness :
    MaterialPalette.init.getMaterialCount ≤ 255 ∧
    (MaterialPalette.init.addMaterial ⟨"Obsidian"⟩).1 = Except.ok 13 := by
  refine ⟨palette_overflow.1 _ MaterialPalette.Reachable.init, ?_⟩
  have h := (palette_overflow.2.2 MaterialPalette.init ⟨"Obsidian"⟩ (by decide)).2
  simpa using h

/-- C9: out-of-range write safety.  A `WorldChunk::setVoxel` at a position
outside `[0, CHUNK_SIZE)³` returns the chunk completely unchanged, and a
`SparseVoxelOctree::setVoxel` at a position outside `[0, worldSize)³`
returns the octree completely unchanged — so no error is raised and no state
observable by any `getVoxel` is mutated. -/
theorem out_of_range_noop :
    (∀ (c : WorldChunk) (p : VoxelPos) (v : Voxel),
      WorldChunk.isValidLocalPos p = false → c.setVoxel p v = c) ∧
    (∀ (s : SparseVoxelOctree) (p : VoxelPos) (v : Voxel),
      (p.x < 0 ∨ p.x ≥ s.worldSize ∨ p.y < 0 ∨ p.y ≥ s.worldSize ∨
       p.z < 0 ∨ p.z ≥ s.worldSize) → s.setVoxel p v = s) := by
  constructor
  · intro c p v h
    simp [WorldChunk.setVoxel, h]
  · intro s p v h
    simp [SparseVoxelOctree.setVoxel, h]

/-- Witness for `out_of_range_noop` at the concrete position `(-1, 0, 0)`. -/
theorem out_of_range_noop_witness :
    (WorldChunk.make ⟨0, 0, 0⟩).setVoxel ⟨-1, 0, 0⟩ (Voxel.make STONE 255) =
      WorldChunk.make ⟨0, 0, 0⟩ ∧
    (SparseVoxelOctree.init 20).setVoxel ⟨-1, 0, 0⟩ (Voxel.make STONE 255) =
      SparseVoxelOctree.init 20 :=
  ⟨out_of_range_noop.1 _ _ _ (by decide),
   out_of_range_noop.2 _ _ _ (Or.inl (by decide))⟩

/-- C10: for every octree state and position, `getVoxel` returns a voxel with
`flags = 0` and `structuralSupport = 255` whose health is 0 (when the descent
does not end in a uniform leaf) or 255 (when it does); the health and flags
of previously written voxels are never reproduced — only a material id
is. -/
theorem svo_voxel_shape (s : SparseVoxelOctree) (p : VoxelPos) :
    (s.getVoxel p).flags = 0 ∧
    (s.getVoxel p).structuralSupport = 255 ∧
    ((s.getVoxel p).health = 0 ∨ (s.getVoxel p).health = 255) ∧
    ((s.getVoxel p).health = 255 ↔
      ∃ n, s.findNode p = some n ∧ n.isLeaf = true ∧ n.isUniform = true) := by
  unfold SparseVoxelOctree.getVoxel
  cases hf : s.findNode p with
  | none =>
    refine ⟨rfl, rfl, Or.inl rfl, ?_⟩
    simp [Voxel.make]
  | some n =>
    dsimp only
    by_cases hu : n.isLeaf = true ∧ n.isUniform = true
    · rw [if_pos hu]
      refine ⟨rfl, rfl, Or.inr rfl, ?_⟩
      exact ⟨fun _ => ⟨n, rfl, hu.1, hu.2⟩, fun _ => rfl⟩
    · rw [if_neg hu]
      refine ⟨rfl, rfl, Or.inl rfl, ?_⟩
      constructor
      · intro h
        exact absurd h (by decide)
      · rintro ⟨n2, hn2, hl, hu2⟩
        obtain rfl : n = n2 := Option.some.inj hn2
        exact absurd ⟨hl, hu2⟩ hu

/-! ## Claims about `VoxelWorldManager` coordinate resolution, loading and
queue discipline -/

theorem assocFind_append_right {α β : Type} [DecidableEq α]
    (l : List (α × β)) (k : α) (v : β) (h : assocFind l k = none) :
    assocFind (l ++ [(k, v)]) k = some v := by
  induction l with
  | nil => simp [assocFind]
  | cons hd tl ih =>
    rcases hd with ⟨k1, v1⟩
    by_cases hk : k = k1
    · subst hk
      simp [assocFind] at h
    · simp only [assocFind, hk, if_false, List.cons_append] at h ⊢
      exact ih h

theorem assocFind_assocSet_self {α β : Type} [DecidableEq α] :
    ∀ (l : List (α × β)) (k : α) (w v0 : β), assocFind l k = some v0 →
      assocFind (assocSet l k w) k = some w := by
  intro l
  induction l with
  | nil => intro k w v0 h; simp [assocFind] at h
  | cons hd tl ih =>
    intro k w v0 h
    rcases hd with ⟨k1, v1⟩
    by_cases hk : k = k1
    · simp [assocFind, assocSet, hk]
    · simp only [assocFind, hk, if_false] at h
      simp only [assocSet, hk, if_false, assocFind]
      exact ih k w v0 h

/-- Counterexample for C4: `ChunkPos` is built with C++ truncating division,
not floor division — at `p = (-1, 0, 0)` the code yields chunk `(0, 0, 0)`
while the floor of `-1/64` is `-1`. -/
theorem chunkpos_floor_counterexample :
    ChunkPos.ofVoxel ⟨-1, 0, 0⟩ 64 = ⟨0, 0, 0⟩ ∧
    specFloorChunkPos ⟨-1, 0, 0⟩ 64 = ⟨-1, 0, 0⟩ ∧
    ChunkPos.ofVoxel ⟨-1, 0, 0⟩ 64 ≠ specFloorChunkPos ⟨-1, 0, 0⟩ 64 := by
  refine ⟨?_, ?_, ?_⟩ <;> decide

/-- C4 (amended): `ChunkPos(p, S)` is the component-wise division truncated
toward zero, which agrees with the spec's floor form exactly on non-negative
components; `VoxelWorldManager::getVoxel` resolves the owning chunk through
this constructor and delegates with `pos % CHUNK_SIZE` local coordinates
(Air when no chunk is resident), and `setVoxel` writes through the same
resolution followed by the `markChunkDirty(chunkPos, DIRTY_MESH)` state
raise. -/
theorem chunk_resolution :
    (∀ (p : VoxelPos) (S : Int), 0 ≤ S → 0 ≤ p.x → 0 ≤ p.y → 0 ≤ p.z →
      ChunkPos.ofVoxel p S = specFloorChunkPos p S) ∧
    (∀ (st : ManagerState) (p : VoxelPos) (c : WorldChunk),
      st.getChunk (ChunkPos.ofVoxel p CHUNK_SIZE) = some c →
      st.getVoxel p = c.getVoxel (p.modSize CHUNK_SIZE)) ∧
    (∀ (st : ManagerState) (p : VoxelPos),
      st.getChunk (ChunkPos.ofVoxel p CHUNK_SIZE) = none →
      st.getVoxel p = Voxel.make AIR 0) ∧
    (∀ (st : ManagerState) (p : VoxelPos) (v : Voxel) (id : Nat)
        (c : WorldChunk),
      assocFind st.activeChunks (ChunkPos.ofVoxel p CHUNK_SIZE) = some id →
      assocFind st.chunkHeap id = some c →
      assocFind (st.setVoxel p v).chunkHeap id =
        some (let c1 := c.setVoxel (p.modSize CHUNK_SIZE) v
              if c1.state.toNat < CState.DIRTY_MESH.toNat then
                c1.setState CState.DIRTY_MESH
              else c1)) := by
  refine ⟨?_, ?_, ?_, ?_⟩
  · intro p S hS hx hy hz
    unfold ChunkPos.ofVoxel specFloorChunkPos
    rw [Int.tdiv_eq_ediv hx hS, Int.tdiv_eq_ediv hy hS, Int.tdiv_eq_ediv hz hS,
        Int.fdiv_eq_ediv _ hS, Int.fdiv_eq_ediv _ hS, Int.fdiv_eq_ediv _ hS]
  · intro st p c h
    unfold ManagerState.getVoxel
    dsimp only
    rw [h]
  · intro st p h
    unfold ManagerState.getVoxel
    dsimp only
    rw [h]
  · intro st p v id c hid hc
    unfold ManagerState.setVoxel
    simp only [hid, hc]
    unfold ManagerState.markChunkDirty
    simp only [hid]
    rw [assocFind_assocSet_self st.chunkHeap id _ c hc]
    dsimp only
    by_cases hlt :
        (c.setVoxel (p.modSize CHUNK_SIZE) v).state.toNat <
          CState.DIRTY_MESH.toNat
    · simp only [hlt, if_true]
      exact assocFind_assocSet_self _ id _ _
        (assocFind_assocSet_self st.chunkHeap id _ c hc)
    · simp only [hlt, if_false]
      exact assocFind_assocSet_self st.chunkHeap id _ c hc

/-- Witness for `chunk_resolution` at concrete inputs: a non-negative
position, and the fresh manager (no chunk resident). -/
theorem chunk_resolution_witness :
    ChunkPos.ofVoxel ⟨70, 1, 2⟩ 64 = specFloorChunkPos ⟨70, 1, 2⟩ 64 ∧
    ManagerState.init.getVoxel ⟨70, 1, 2⟩ = Voxel.make AIR 0 :=
  ⟨chunk_resolution.1 ⟨70, 1, 2⟩ 64 (by decide) (by decide) (by decide)
      (by decide),
   chunk_resolution.2.2.1 ManagerState.init ⟨70, 1, 2⟩ rfl⟩

/-- Counterexample for C6: `loadChunk` inserts the freshly constructed chunk
with the constructor's state `UNLOADED`, not `LOADING` — readers polling
`getChunk` before the worker finishes observe `UNLOADED`. -/
theorem load_state_counterexample :
    ((ManagerState.init.loadChunk ⟨0, 0, 0⟩ Priority.NORMAL).getChunk
        ⟨0, 0, 0⟩).map WorldChunk.state = some CState.UNLOADED ∧
    CState.UNLOADED ≠ CState.LOADING := by
  exact ⟨rfl, by decide⟩

/-- C6 (amended): `loadChunk(p, priority)` on a non-resident position
constructs an empty chunk, immediately inserts it into the active table in
the constructor's initial state `UNLOADED` (visible to readers via `getChunk`
before the load completes), and appends exactly one load task for `p` to the
queue; a `loadChunk(p)` issued while `p` is resident (including still
loading) is a complete no-op that does not re-enqueue, so a single residency
never acquires a second task. -/
theorem load_chunk_behavior (st : ManagerState) (pos : ChunkPos)
    (pr : Priority) (hfresh : assocFind st.chunkHeap st.nextId = none) :
    (assocFind st.activeChunks pos = none →
      (st.loadChunk pos pr).getChunk pos = some (WorldChunk.make pos) ∧
      (WorldChunk.make pos).state = CState.UNLOADED ∧
      (st.loadChunk pos pr).loadingQueue =
        st.loadingQueue ++ [⟨pos, st.nextId, pr⟩]) ∧
    (∀ id, assocFind st.activeChunks pos = some id →
      st.loadChunk pos pr = st) := by
  constructor
  · intro hnone
    unfold ManagerState.loadChunk
    rw [hnone]
    unfold ManagerState.createChunk
    refine ⟨?_, rfl, rfl⟩
    unfold ManagerState.getChunk
    simp only
    rw [assocFind_append_right st.activeChunks pos st.nextId hnone]
    exact assocFind_append_right st.chunkHeap st.nextId _ hfresh
  · intro id hid
    unfold ManagerState.loadChunk
    rw [hid]

/-- Witness for `load_chunk_behavior`: loading chunk `(0,0,0)` into the fresh
manager, then observing that a second load of the same position is a
no-op. -/
theorem load_chunk_behavior_witness :
    ((ManagerState.init.loadChunk ⟨0, 0, 0⟩ Priority.NORMAL).getChunk ⟨0, 0, 0⟩ =
      some (WorldChunk.make ⟨0, 0, 0⟩)) ∧
    ((ManagerState.init.loadChunk ⟨0, 0, 0⟩ Priority.NORMAL).loadChunk ⟨0, 0, 0⟩
        Priority.URGENT =
      ManagerState.init.loadChunk ⟨0, 0, 0⟩ Priority.NORMAL) :=
  ⟨((load_chunk_behavior ManagerState.init ⟨0, 0, 0⟩ Priority.NORMAL rfl).1
      rfl).1,
   (load_chunk_behavior (ManagerState.init.loadChunk ⟨0, 0, 0⟩ Priority.NORMAL)
      ⟨0, 0, 0⟩ Priority.URGENT rfl).2 0 rfl⟩

/-- Counterexample for C7: the loading queue is a FIFO `std::queue`, so a
worker services an URGENT task enqueued after a NORMAL task only after the
NORMAL one — the first dequeued task below has priority NORMAL although an
URGENT task is pending. -/
theorem fifo_counterexample :
    (((ManagerState.init.loadChunk ⟨0, 0, 0⟩ Priority.NORMAL).loadChunk
        ⟨1, 0, 0⟩ Priority.URGENT).dequeueTask).map (fun x => x.1.priority) =
      some Priority.NORMAL ∧
    Priority.NORMAL ≠ Priority.URGENT := by
  exact ⟨rfl, by decide⟩

/-- C7 (amended): pending chunk-load tasks are serviced in enqueue (FIFO)
order regardless of priority: the worker always dequeues the front of the
queue, so an URGENT task enqueued after a NORMAL (or lower) task is serviced
after it; the task's priority field does not influence the order. -/
theorem fifo_dequeue (st : ManagerState) (t : ChunkLoadTask)
    (rest : List ChunkLoadTask) (h : st.loadingQueue = t :: rest) :
    st.dequeueTask = some (t, { st with loadingQueue := rest }) ∧
    st.workerStep.loadingQueue = rest := by
  constructor
  · unfold ManagerState.dequeueTask
    rw [h]
  · unfold ManagerState.workerStep
    rw [h]
    cases hc : assocFind st.chunkHeap t.chunkId <;> simp [hc]

/-- Witness for `fifo_dequeue` on the two-task queue of the counterexample
state. -/
theorem fifo_dequeue_witness :
    ((ManagerState.init.loadChunk ⟨0, 0, 0⟩ Priority.NORMAL).loadChunk
        ⟨1, 0, 0⟩ Priority.URGENT).workerStep.loadingQueue =
      [⟨⟨1, 0, 0⟩, 1, Priority.URGENT⟩] :=
  (fifo_dequeue _ ⟨⟨0, 0, 0⟩, 0, Priority.NORMAL⟩
    [⟨⟨1, 0, 0⟩, 1, Priority.URGENT⟩] rfl).2

/-! ## Claim about octree merging (`optimize`/`mergeUniformChildren`) -/

/-- C5 (code_bug evidence): in the scenario that populates all 8 children of
one internal node with uniform stone leaves (verified by the mask/`canMerge`
conjunct), `optimize()` does collapse the node — the merge cascades up to the
root, which becomes a single uniform stone leaf — and `getVoxel` is unchanged
on the node's region `[0,4)³`; the actual number of allocated nodes drops
from 27 to 1, but the `getNodeCount()` accessor the claim cites is a
hard-coded placeholder returning 1000, so the observable node count does not
strictly decrease. -/
theorem merge_scenario :
    (((List.replicate 18 0).foldl (fun o i => Option.bind o fun n => n.getChild i)
        (some mergeScnSVO.root)).map
          (fun n => (n.childMask, canMergeNode n, n.isLeaf)) =
      some (255, true, false)) ∧
    ((mergeScnSVO.optimize).root.isLeaf = true ∧
     (mergeScnSVO.optimize).root.isUniform = true ∧
     (mergeScnSVO.optimize).root.materialID = STONE) ∧
    (∀ x y z : Fin 4,
      mergeScnSVO.optimize.getVoxel ⟨((x : Nat) : Int), ((y : Nat) : Int), ((z : Nat) : Int)⟩ =
        mergeScnSVO.getVoxel ⟨((x : Nat) : Int), ((y : Nat) : Int), ((z : Nat) : Int)⟩) ∧
    (allocatedNodeCount mergeScnSVO.root = 27 ∧
     allocatedNodeCount (mergeScnSVO.optimize).root = 1) ∧
    (mergeScnSVO.optimize.getNodeCount = mergeScnSVO.getNodeCount ∧
     ¬ mergeScnSVO.optimize.getNodeCount < mergeScnSVO.getNodeCount) := by
  refine ⟨?_, ⟨?_, ?_, ?_⟩, ?_, ⟨?_, ?_⟩, ?_, ?_⟩ <;>
    · set_option maxRecDepth 30000 in decide

/-! ## The octree descent against its material-map abstraction -/

theorem models_fresh (lv : Nat) (n : SVONode) (f : List Nat → Option Nat)
    (hn : freshLeafLike n) (hf : ∀ k, f k = none) : Models lv n f := by
  match lv with
  | 0 => trivial
  | 1 =>
    refine ⟨fun _ => hn, fun m hm => ?_⟩
    rw [hf []] at hm
    exact absurd hm (by simp)
  | l + 2 =>
    refine ⟨fun _ => hn, fun hex => ?_⟩
    rcases hex with ⟨k, hk⟩
    rw [hf k] at hk
    simp at hk

theorem setGo_fresh_models (cix : Nat → Nat) (mat : Nat)
    (hcix : ∀ j, cix j < 8) :
    ∀ lv : Nat, 1 ≤ lv → ∀ (lvl : Nat) (f : List Nat → Option Nat),
      (∀ k, f k = none) →
      Models lv (setGo cix mat lv (SVONode.fresh lvl))
        (updKey f (pathFrom cix lv) mat)
  | 0, h => absurd h (by omega)
  | 1, _ => by
    intro lvl f hf
    have hred : setGo cix mat 1 (SVONode.fresh lvl) =
        SVONode.mk 0 mat lvl true true none := by
      simp [setGo, SVONode.fresh, SVONode.mutLeaf, SVONode.isLeaf]
    rw [hred]
    constructor
    · intro habs
      simp [updKey, pathFrom] at habs
    · intro m2 hm2
      have hm : mat = m2 := by simpa [updKey, pathFrom] using hm2
      subst hm
      exact ⟨rfl, rfl, rfl, rfl, rfl⟩
  | (l + 2), _ => by
    intro lvl f hf
    have hci : cix (l + 2) < 8 := hcix _
    set ci := cix (l + 2) with hci_def
    set fr : SVONode := SVONode.fresh ((lvl + 255) % 256) with hfr_def
    set rec2 : SVONode := setGo cix mat (l + 1) fr with hrec_def
    have hslot : slotGet ((List.replicate 8 (none : Option SVONode)).set ci
        (some fr)) ci = some fr := by
      apply slotGet_set_self
      simpa using hci
    have hred : setGo cix mat (l + 2) (SVONode.fresh lvl) =
        SVONode.mk (0 ||| (1 <<< ci)) 0 lvl false true
          (some (slotSet ((List.replicate 8 (none : Option SVONode)).set ci
              (some fr)) ci (some rec2))) := by
      show setGo cix mat (l + 1 + 1) (SVONode.fresh lvl) = _
      rw [setGo]
      rw [show l + 1 + 1 = l + 2 from rfl]
      dsimp only
      rw [if_pos (show (SVONode.fresh lvl).isLeaf = true ∧ l + 2 > 1 from
        ⟨rfl, by omega⟩)]
      simp only [SVONode.fresh, SVONode.convertToInternal]
      simp only [SVONode.isLeaf, Bool.false_eq_true, if_false]
      have hbit0 : (SVONode.mk 0 0 lvl false true
          (some (List.replicate 8 (none : Option SVONode)))).hasChild ci
          = false := by
        rw [hasChild_eq]
        simp only [SVONode.childMask]
        exact Nat.zero_testBit ci
      simp only [hbit0, Bool.false_eq_true, if_false]
      simp only [SVONode.createChild, SVONode.childMask, SVONode.children,
        Option.getD_some]
      have hgc : (SVONode.mk (0 ||| (1 <<< ci)) 0 lvl false true
          (some ((List.replicate 8 (none : Option SVONode)).set ci
            (some fr)))).getChild ci = some fr := by
        unfold SVONode.getChild
        rw [if_pos (by
          rw [hasChild_eq]
          simp only [SVONode.childMask]
          rw [Nat.zero_or, Nat.shiftLeft_eq, one_mul]
          exact Nat.testBit_two_pow_self)]
        simpa [SVONode.children] using hslot
      rw [hgc]
    rw [hred]
    have hkey : pathFrom cix (l + 2) = ci :: pathFrom cix (l + 1) := rfl
    rw [hkey]
    constructor
    · intro hall
      have := hall (ci :: pathFrom cix (l + 1))
      simp [updKey] at this
    · intro _
      refine ⟨rfl, slotSet ((List.replicate 8 (none : Option SVONode)).set ci
        (some fr)) ci (some rec2), rfl, by simp [slotSet], ?_⟩
      intro i hi
      constructor
      · intro hnone_i
        by_cases hie : i = ci
        · subst hie
          have := hnone_i (pathFrom cix (l + 1))
          simp [updKey] at this
        · refine ⟨?_, ?_⟩
          · rw [slotGet_set_ne _ _ (fun h => hie h.symm)]
            rw [show ((List.replicate 8 (none : Option SVONode)).set ci
                (some fr)) = slotSet (List.replicate 8 none) ci (some fr) from
              rfl]
            rw [slotGet_set_ne _ _ (fun h => hie h.symm)]
            exact slotGet_replicate i
          · rw [hasChild_eq]
            simp only [SVONode.childMask]
            rw [Nat.zero_or, Nat.shiftLeft_eq, one_mul]
            exact Nat.testBit_two_pow_of_ne (fun h => hie h.symm)
      · intro hex_i
        by_cases hie : i = ci
        · subst hie
          refine ⟨rec2, ?_, ?_, ?_⟩
          · apply slotGet_set_self
            simpa using hci
          · rw [hasChild_eq]
            simp only [SVONode.childMask]
            rw [Nat.zero_or, Nat.shiftLeft_eq, one_mul]
            exact Nat.testBit_two_pow_self
          · have hfun : (fun k => updKey f (ci :: pathFrom cix (l + 1)) mat
                (ci :: k)) =
                updKey (fun k => f (ci :: k)) (pathFrom cix (l + 1)) mat := by
              funext k
              simp [updKey]
            rw [hfun]
            exact setGo_fresh_models cix mat hcix (l + 1) (by omega) _ _
              (fun k => hf (ci :: k))
        · exfalso
          rcases hex_i with ⟨k, hk⟩
          rw [show updKey f (ci :: pathFrom cix (l + 1)) mat (i :: k) =
              f (i :: k) from by simp [updKey, hie]] at hk
          rw [hf (i :: k)] at hk
          simp at hk

theorem setGo_models (cix : Nat → Nat) (mat : Nat)
    (hcix : ∀ j, cix j < 8) :
    ∀ lv : Nat, 1 ≤ lv → ∀ (n : SVONode) (f : List Nat → Option Nat),
      Models lv n f →
      Models lv (setGo cix mat lv n) (updKey f (pathFrom cix lv) mat)
  | 0, h => absurd h (by omega)
  | 1, _ => by
    intro n f hm
    obtain ⟨hnone, hsome⟩ := hm
    rcases n with ⟨m0, mt0, lvl0, lf0, u0, ch0⟩
    have hfields : lf0 = true ∧ m0 = 0 ∧ ch0 = none := by
      cases hf : f [] with
      | none =>
        obtain ⟨h1, _, _, h4, h5⟩ := hnone hf
        exact ⟨h1, h4, h5⟩
      | some m =>
        obtain ⟨h1, _, _, h4, h5⟩ := hsome m hf
        exact ⟨h1, h4, h5⟩
    obtain ⟨hlf, hmask, hch⟩ := hfields
    subst hlf hmask hch
    have hred : setGo cix mat 1 (SVONode.mk 0 mt0 lvl0 true u0 none) =
        SVONode.mk 0 mat lvl0 true true none := by
      simp [setGo, SVONode.mutLeaf, SVONode.isLeaf]
    rw [hred]
    constructor
    · intro habs
      simp [updKey, pathFrom] at habs
    · intro m2 hm2
      have hm : mat = m2 := by simpa [updKey, pathFrom] using hm2
      subst hm
      exact ⟨rfl, rfl, rfl, rfl, rfl⟩
  | (l + 2), _ => by
    intro n f hm
    obtain ⟨hemp_cl, hnemp_cl⟩ := hm
    have hci : cix (l + 2) < 8 := hcix _
    set ci := cix (l + 2) with hci_def
    have hkey : pathFrom cix (l + 2) = ci :: pathFrom cix (l + 1) := rfl
    by_cases hemp : ∀ k, f k = none
    · -- the whole subtree is untouched: the node is a fresh leaf and the
      -- specialized lemma applies
      obtain ⟨hlf, hu, hmat, hmask, hch⟩ := hemp_cl hemp
      rcases n with ⟨m0, mt0, lvl0, lf0, u0, ch0⟩
      simp only [SVONode.isLeaf] at hlf
      simp only [SVONode.isUniform] at hu
      simp only [SVONode.materialID] at hmat
      simp only [SVONode.childMask] at hmask
      simp only [SVONode.children] at hch
      subst hlf hu hmat hmask hch
      exact setGo_fresh_models cix mat hcix (l + 2) (by omega) lvl0 f hemp
    · have hex : ∃ k, (f k).isSome := by
        push_neg at hemp
        rcases hemp with ⟨k, hk⟩
        exact ⟨k, Option.isSome_iff_ne_none.mpr hk⟩
      obtain ⟨hlf, t, hch, hlen, hslots⟩ := hnemp_cl hex
      rcases n with ⟨m0, mt0, lvl0, lf0, u0, ch0⟩
      simp only [SVONode.isLeaf] at hlf
      simp only [SVONode.children] at hch
      subst hlf hch
      by_cases hsub : ∀ k, f (ci :: k) = none
      · -- the child slot on the path is still empty: created fresh
        obtain ⟨hslot_none, hbit_false⟩ := (hslots ci hci).1 hsub
        set fr : SVONode := SVONode.fresh ((lvl0 + 255) % 256) with hfr_def
        set rec2 : SVONode := setGo cix mat (l + 1) fr with hrec_def
        have hslot2 : slotGet (t.set ci (some fr)) ci = some fr := by
          apply slotGet_set_self
          rw [hlen]
          exact hci
        have hred : setGo cix mat (l + 2)
            (SVONode.mk m0 mt0 lvl0 false u0 (some t)) =
            SVONode.mk (m0 ||| (1 <<< ci)) mt0 lvl0 false u0
              (some (slotSet (t.set ci (some fr)) ci (some rec2))) := by
          show setGo cix mat (l + 1 + 1) _ = _
          rw [setGo]
          rw [show l + 1 + 1 = l + 2 from rfl]
          dsimp only
          simp only [if_neg (show ¬ ((SVONode.mk m0 mt0 lvl0 false u0
              (some t)).isLeaf = true ∧ l + 2 > 1) from fun h => by
            simp [SVONode.isLeaf] at h)]
          simp only [SVONode.isLeaf, Bool.false_eq_true, if_false]
          simp only [hbit_false, Bool.false_eq_true, if_false]
          simp only [SVONode.createChild, SVONode.childMask, SVONode.children,
            Option.getD_some]
          have hgc : (SVONode.mk (m0 ||| (1 <<< ci)) mt0 lvl0 false u0
              (some (t.set ci (some fr)))).getChild ci = some fr := by
            unfold SVONode.getChild
            rw [if_pos (by
              rw [hasChild_eq]
              simp only [SVONode.childMask]
              rw [Nat.testBit_or, Nat.shiftLeft_eq, one_mul,
                Nat.testBit_two_pow_self]
              simp)]
            simpa [SVONode.children] using hslot2
          rw [hgc]
        rw [hred, hkey]
        constructor
        · intro hall
          have := hall (ci :: pathFrom cix (l + 1))
          simp [updKey] at this
        · intro _
          refine ⟨rfl, slotSet (t.set ci (some fr)) ci (some rec2), rfl,
            by simp [slotSet, hlen], ?_⟩
          intro i hi
          have hmask_new : ∀ j, j ≠ ci →
              (SVONode.mk (m0 ||| (1 <<< ci)) mt0 lvl0 false u0
                (some (slotSet (t.set ci (some fr)) ci (some rec2)))).hasChild j =
              (SVONode.mk m0 mt0 lvl0 false u0 (some t)).hasChild j := by
            intro j hj
            rw [hasChild_eq, hasChild_eq]
            simp only [SVONode.childMask]
            rw [Nat.testBit_or, Nat.shiftLeft_eq, one_mul,
              Nat.testBit_two_pow_of_ne (fun h => hj h.symm)]
            simp
          have hslot_new : ∀ j, j ≠ ci →
              slotGet (slotSet (t.set ci (some fr)) ci (some rec2)) j =
              slotGet t j := by
            intro j hj
            rw [slotGet_set_ne _ _ (fun h => hj h.symm)]
            rw [show (t.set ci (some fr)) = slotSet t ci (some fr) from rfl]
            rw [slotGet_set_ne _ _ (fun h => hj h.symm)]
          have hsame : ∀ j, j ≠ ci → ∀ k,
              updKey f (ci :: pathFrom cix (l + 1)) mat (j :: k) =
                f (j :: k) := by
            intro j hj k
            simp [updKey, hj]
          constructor
          · intro hnone_i
            by_cases hie : i = ci
            · subst hie
              have := hnone_i (pathFrom cix (l + 1))
              simp [updKey] at this
            · have hold := (hslots i hi).1 (fun k => by
                rw [← hsame i hie k]
                exact hnone_i k)
              exact ⟨(hslot_new i hie).trans hold.1,
                (hmask_new i hie).trans hold.2⟩
          · intro hex_i
            by_cases hie : i = ci
            · subst hie
              refine ⟨rec2, ?_, ?_, ?_⟩
              · apply slotGet_set_self
                simp [hlen, hci]
              · rw [hasChild_eq]
                simp only [SVONode.childMask]
                rw [Nat.testBit_or, Nat.shiftLeft_eq, one_mul,
                  Nat.testBit_two_pow_self]
                simp
              · have hfun : (fun k => updKey f (ci :: pathFrom cix (l + 1)) mat
                    (ci :: k)) =
                    updKey (fun k => f (ci :: k)) (pathFrom cix (l + 1)) mat := by
                  funext k
                  simp [updKey]
                rw [hfun]
                exact setGo_fresh_models cix mat hcix (l + 1) (by omega) _ _
                  (fun k => hsub k)
            · have hex_old : ∃ k, (f (i :: k)).isSome := by
                rcases hex_i with ⟨k, hk⟩
                refine ⟨k, ?_⟩
                rw [← hsame i hie k]
                exact hk
              obtain ⟨c, hcslot, hcbit, hcmod⟩ := (hslots i hi).2 hex_old
              refine ⟨c, (hslot_new i hie).trans hcslot,
                (hmask_new i hie).trans hcbit, ?_⟩
              have hfun : (fun k => updKey f (ci :: pathFrom cix (l + 1)) mat
                  (i :: k)) = (fun k => f (i :: k)) :=
                funext (hsame i hie)
              rw [hfun]
              exact hcmod
      · -- the child on the path already exists: recurse into it
        have hex_sub : ∃ k, (f (ci :: k)).isSome := by
          push_neg at hsub
          rcases hsub with ⟨k, hk⟩
          exact ⟨k, Option.isSome_iff_ne_none.mpr hk⟩
        obtain ⟨c, hcslot, hcbit, hcmod⟩ := (hslots ci hci).2 hex_sub
        set rec2 : SVONode := setGo cix mat (l + 1) c with hrec_def
        have hred : setGo cix mat (l + 2)
            (SVONode.mk m0 mt0 lvl0 false u0 (some t)) =
            SVONode.mk m0 mt0 lvl0 false u0
              (some (slotSet t ci (some rec2))) := by
          show setGo cix mat (l + 1 + 1) _ = _
          rw [setGo]
          rw [show l + 1 + 1 = l + 2 from rfl]
          dsimp only
          simp only [if_neg (show ¬ ((SVONode.mk m0 mt0 lvl0 false u0
              (some t)).isLeaf = true ∧ l + 2 > 1) from fun h => by
            simp [SVONode.isLeaf] at h)]
          simp only [SVONode.isLeaf, Bool.false_eq_true, if_false]
          simp only [hcbit, if_true]
          have hgc : (SVONode.mk m0 mt0 lvl0 false u0
              (some t)).getChild ci = some c := by
            unfold SVONode.getChild
            rw [if_pos hcbit]
            simpa [SVONode.children] using hcslot
          rw [hgc]
          simp only [SVONode.children, Option.getD_some]
        rw [hred, hkey]
        constructor
        · intro hall
          have := hall (ci :: pathFrom cix (l + 1))
          simp [updKey] at this
        · intro _
          refine ⟨rfl, slotSet t ci (some rec2), rfl,
            by simp [slotSet, hlen], ?_⟩
          intro i hi
          have hmask_new :
              (SVONode.mk m0 mt0 lvl0 false u0
                (some (slotSet t ci (some rec2)))).hasChild i =
              (SVONode.mk m0 mt0 lvl0 false u0 (some t)).hasChild i := by
            rw [hasChild_eq, hasChild_eq]
            simp only [SVONode.childMask]
          have hsame : ∀ j, j ≠ ci → ∀ k,
              updKey f (ci :: pathFrom cix (l + 1)) mat (j :: k) =
                f (j :: k) := by
            intro j hj k
            simp [updKey, hj]
          constructor
          · intro hnone_i
            by_cases hie : i = ci
            · subst hie
              have := hnone_i (pathFrom cix (l + 1))
              simp [updKey] at this
            · have hold := (hslots i hi).1 (fun k => by
                rw [← hsame i hie k]
                exact hnone_i k)
              refine ⟨?_, hmask_new.trans hold.2⟩
              rw [slotGet_set_ne _ _ (fun h => hie h.symm)]
              exact hold.1
          · intro hex_i
            by_cases hie : i = ci
            · subst hie
              refine ⟨rec2, ?_, hmask_new.trans hcbit, ?_⟩
              · apply slotGet_set_self
                rw [hlen]
                exact hci
              · have hfun : (fun k => updKey f (ci :: pathFrom cix (l + 1)) mat
                    (ci :: k)) =
                    updKey (fun k => f (ci :: k)) (pathFrom cix (l + 1)) mat := by
                  funext k
                  simp [updKey]
                rw [hfun]
                exact setGo_models cix mat hcix (l + 1) (by omega) c _ hcmod
            · have hex_old : ∃ k, (f (i :: k)).isSome := by
                rcases hex_i with ⟨k, hk⟩
                refine ⟨k, ?_⟩
                rw [← hsame i hie k]
                exact hk
              obtain ⟨c2, hc2slot, hc2bit, hc2mod⟩ := (hslots i hi).2 hex_old
              refine ⟨c2, ?_, hmask_new.trans hc2bit, ?_⟩
              · rw [slotGet_set_ne _ _ (fun h => hie h.symm)]
                exact hc2slot
              · have hfun : (fun k => updKey f (ci :: pathFrom cix (l + 1)) mat
                    (i :: k)) = (fun k => f (i :: k)) :=
                  funext (hsame i hie)
                rw [hfun]
                exact hc2mod

theorem findGo_models (cix : Nat → Nat) (hcix : ∀ j, cix j < 8) :
    ∀ lv : Nat, 1 ≤ lv → ∀ (n : SVONode) (f : List Nat → Option Nat),
      Models lv n f →
      (∀ m, f (pathFrom cix lv) = some m →
        voxelOfFind (findGo cix lv n) = Voxel.make m 255) ∧
      (f (pathFrom cix lv) = none →
        (voxelOfFind (findGo cix lv n)).materialID = 0)
  | 0, h => absurd h (by omega)
  | 1, _ => by
    intro n f hm
    obtain ⟨hnone, hsome⟩ := hm
    constructor
    · intro m hmm
      obtain ⟨hlf, hu, hmat, _, _⟩ := hsome m hmm
      have hfind : findGo cix 1 n = some n := by
        rw [findGo, if_pos hlf]
      rw [hfind, voxelOfFind, if_pos ⟨hlf, hu⟩, hmat]
    · intro hmm
      obtain ⟨hlf, hu, hmat, _, _⟩ := hnone hmm
      have hfind : findGo cix 1 n = some n := by
        rw [findGo, if_pos hlf]
      rw [hfind, voxelOfFind, if_pos ⟨hlf, hu⟩, hmat]
      rfl
  | (l + 2), _ => by
    intro n f hm
    obtain ⟨hemp_cl, hnemp_cl⟩ := hm
    have hci : cix (l + 2) < 8 := hcix _
    set ci := cix (l + 2) with hci_def
    have hkey : pathFrom cix (l + 2) = ci :: pathFrom cix (l + 1) := rfl
    by_cases hemp : ∀ k, f k = none
    · obtain ⟨hlf, hu, hmat, _, _⟩ := hemp_cl hemp
      have hfind : findGo cix (l + 2) n = some n := by
        show findGo cix (l + 1 + 1) n = _
        rw [findGo, if_pos hlf]
      constructor
      · intro m hmm
        rw [hemp (pathFrom cix (l + 2))] at hmm
        exact absurd hmm (by simp)
      · intro _
        rw [hfind, voxelOfFind, if_pos ⟨hlf, hu⟩, hmat]
        rfl
    · have hex : ∃ k, (f k).isSome := by
        push_neg at hemp
        rcases hemp with ⟨k, hk⟩
        exact ⟨k, Option.isSome_iff_ne_none.mpr hk⟩
      obtain ⟨hlf, t, hch, hlen, hslots⟩ := hnemp_cl hex
      by_cases hsub : ∀ k, f (ci :: k) = none
      · obtain ⟨hslot_none, hbit_false⟩ := (hslots ci hci).1 hsub
        have hgc : n.getChild ci = none := by
          unfold SVONode.getChild
          rw [hbit_false]
          simp
        have hfind : findGo cix (l + 2) n = none := by
          show findGo cix (l + 1 + 1) n = _
          rw [findGo]
          rw [show l + 1 + 1 = l + 2 from rfl]
          rw [if_neg (by rw [hlf]; simp), hgc]
        constructor
        · intro m hmm
          rw [hkey, hsub (pathFrom cix (l + 1))] at hmm
          exact absurd hmm (by simp)
        · intro _
          rw [hfind]
          rfl
      · have hex_sub : ∃ k, (f (ci :: k)).isSome := by
          push_neg at hsub
          rcases hsub with ⟨k, hk⟩
          exact ⟨k, Option.isSome_iff_ne_none.mpr hk⟩
        obtain ⟨c, hcslot, hcbit, hcmod⟩ := (hslots ci hci).2 hex_sub
        have hgc : n.getChild ci = some c := by
          unfold SVONode.getChild
          rw [hcbit]
          simp only [if_true, hch]
          exact hcslot
        have hfind : findGo cix (l + 2) n = findGo cix (l + 1) c := by
          show findGo cix (l + 1 + 1) n = _
          rw [findGo]
          rw [show l + 1 + 1 = l + 2 from rfl]
          rw [if_neg (by rw [hlf]; simp), hgc]
        have ih := findGo_models cix hcix (l + 1) (by omega) c _ hcmod
        rw [hkey]
        constructor
        · intro m hmm
          rw [hfind]
          exact ih.1 m hmm
        · intro hmm
          rw [hfind]
          exact ih.2 hmm

/-! ## Transport of `storeChunkData` to the material map -/

theorem setVoxel_sim (s : SparseVoxelOctree) (f : List Nat → Option Nat)
    (q : VoxelPos) (v : Voxel) (hs : Sim s f)
    (hq : 0 ≤ q.x ∧ q.x < 64 ∧ 0 ≤ q.y ∧ q.y < 64 ∧ 0 ≤ q.z ∧ q.z < 64) :
    Sim (s.setVoxel q v) (updKey f (path19 q) v.materialID) := by
  obtain ⟨hmd, hws, hmod⟩ := hs
  obtain ⟨h1, h2, h3, h4, h5, h6⟩ := hq
  have hbig : (64 : Int) < 2 ^ 20 := by decide
  have hguard : ¬ (q.x < 0 ∨ q.x ≥ s.worldSize ∨ q.y < 0 ∨ q.y ≥ s.worldSize ∨
      q.z < 0 ∨ q.z ≥ s.worldSize) := by
    rw [hws]
    push_neg
    refine ⟨h1, by omega, h3, by omega, h5, by omega⟩
  unfold SparseVoxelOctree.setVoxel
  rw [if_neg hguard]
  refine ⟨hmd, hws, ?_⟩
  simp only [hmd]
  exact setGo_models (getChildIndex q) v.materialID (getChildIndex_lt8 q) 20
    (by omega) s.root f hmod

theorem fold_store_sim (g : VoxelPos → Voxel) :
    ∀ (l : List VoxelPos) (s : SparseVoxelOctree) (f : List Nat → Option Nat),
      Sim s f →
      (∀ q ∈ l, 0 ≤ q.x ∧ q.x < 64 ∧ 0 ≤ q.y ∧ q.y < 64 ∧ 0 ≤ q.z ∧
        q.z < 64) →
      Sim (l.foldl (fun acc q => acc.setVoxel q (g q)) s)
        (l.foldl (fun acc q => updKey acc (path19 q) ((g q).materialID)) f) := by
  intro l
  induction l with
  | nil => intro s f hs _; exact hs
  | cons q rest ih =>
    intro s f hs hb
    rw [List.foldl_cons, List.foldl_cons]
    exact ih _ _ (setVoxel_sim s f q (g q) hs (hb q (by simp)))
      (fun r hr => hb r (by simp [hr]))

theorem chunkPositions_bounds :
    ∀ q ∈ chunkPositions, 0 ≤ q.x ∧ q.x < 64 ∧ 0 ≤ q.y ∧ q.y < 64 ∧
      0 ≤ q.z ∧ q.z < 64 := by
  intro q hq
  rw [chunkPositions] at hq
  rcases List.mem_flatMap.mp hq with ⟨x, hx, hq2⟩
  rw [xyBlock] at hq2
  rcases List.mem_flatMap.mp hq2 with ⟨y, hy, hq3⟩
  rw [zRow] at hq3
  rcases List.mem_map.mp hq3 with ⟨z, hz, rfl⟩
  have hx2 := List.mem_range.mp hx
  have hy2 := List.mem_range.mp hy
  have hz2 := List.mem_range.mp hz
  dsimp only
  omega

theorem storeChunkData_origin_zero (s : SparseVoxelOctree) (chunk : WorldChunk) :
    s.storeChunkData ⟨0, 0, 0⟩ chunk =
      chunkPositions.foldl (fun acc q => acc.setVoxel q (chunk.getVoxel q)) s := by
  unfold SparseVoxelOctree.storeChunkData
  rw [chunkPositions, foldl_flatMap_eq]
  apply List.foldl_ext
  intro acc x _
  rw [xyBlock, foldl_flatMap_eq]
  apply List.foldl_ext
  intro acc2 y _
  rw [zRow, List.foldl_map]
  apply List.foldl_ext
  intro acc3 z _
  dsimp only
  norm_num [ChunkPos.toVoxelPos, CHUNK_SIZE]

theorem loadChunkData_all_air (s : SparseVoxelOctree) (cp : ChunkPos)
    (c : WorldChunk) (h : ∀ p, (s.getVoxel p).materialID = 0) :
    s.loadChunkData cp c = c := by
  unfold SparseVoxelOctree.loadChunkData
  apply foldl_fixed
  intro acc x _
  apply foldl_fixed
  intro acc2 y _
  apply foldl_fixed
  intro acc3 z _
  simp [h, AIR]

/-! ## Locating the last aliased write of the eviction flush -/

theorem foldl_inv {α β : Type} (step : α → β → α) (P : α → Prop) :
    ∀ (l : List β) (a : α), P a →
      (∀ acc b, b ∈ l → P acc → P (step acc b)) → P (l.foldl step a) := by
  intro l
  induction l with
  | nil => intro a h _; exact h
  | cons b rest ih =>
    intro a h hstep
    rw [List.foldl_cons]
    exact ih _ (hstep a b (by simp) h)
      (fun acc b2 hb2 => hstep acc b2 (by simp [hb2]))

theorem pathFrom_inj_at (cix cix2 : Nat → Nat) :
    ∀ l : Nat, pathFrom cix l = pathFrom cix2 l →
      ∀ j, 2 ≤ j → j ≤ l → cix j = cix2 j
  | 0 => by intro _ j h2 h0; omega
  | 1 => by intro _ j h2 h1; omega
  | l + 2 => by
    intro h j h2 hle
    rw [pathFrom, pathFrom] at h
    injection h with h1 hrest
    rcases Nat.lt_or_ge j (l + 2) with hlt | hge
    · exact pathFrom_inj_at cix cix2 (l + 1) hrest j h2 (by omega)
    · have hj : j = l + 2 := by omega
      subst hj
      exact h1

theorem path19_lt8 (q : VoxelPos) (h : path19 q = pstar) :
    q.x < 8 ∧ q.y < 8 ∧ q.z < 8 := by
  have h4 := pathFrom_inj_at (getChildIndex q) (getChildIndex ⟨5, 5, 5⟩) 20 h 4
    (by omega) (by omega)
  have h40 : getChildIndex ⟨5, 5, 5⟩ 4 = 0 := by decide
  rw [h40] at h4
  unfold getChildIndex at h4
  norm_num [SparseVoxelOctree.getNodeSize] at h4
  omega

theorem path19_ne_pstar_of_ge8 (q : VoxelPos)
    (h : 8 ≤ q.x ∨ 8 ≤ q.y ∨ 8 ≤ q.z) : path19 q ≠ pstar := by
  intro hp
  have h3 := path19_lt8 q hp
  rcases h with h | h | h <;> omega

theorem range64_eq :
    List.range 64 = List.range 7 ++ 7 :: (List.range 56).map (fun t => 8 + t) := by
  decide

theorem mem_tail56_ge8 : ∀ b ∈ (List.range 56).map (fun t => 8 + t), 8 ≤ b := by
  intro b hb
  rcases List.mem_map.mp hb with ⟨t, _, rfl⟩
  omega

theorem chunk1_sparse : chunk1.sparseStorage =
    some (fun q => if q = ⟨5, 5, 5⟩ then some stoneVoxel else none) := rfl

theorem chunk1_isDense : chunk1.isDense = false := rfl

theorem chunk1_material (q : VoxelPos) (hq : q ≠ ⟨5, 5, 5⟩) :
    (chunk1.getVoxel q).materialID = 0 := by
  unfold WorldChunk.getVoxel
  by_cases hv : WorldChunk.isValidLocalPos q = true
  · rw [if_neg (by simp [hv])]
    rw [if_neg (by simp [chunk1_isDense])]
    rw [chunk1_sparse]
    simp [hq, airVoxel, Voxel.make, AIR]
  · rw [if_pos (by simp [hv])]
    simp [airVoxel, Voxel.make, AIR]

theorem chunk1_material_stone (q : VoxelPos)
    (h : (chunk1.getVoxel q).materialID ≠ 0) : q = ⟨5, 5, 5⟩ := by
  by_cases hq : q = ⟨5, 5, 5⟩
  · exact hq
  · exact absurd (chunk1_material q hq) h

/-- The `(7,7,7)` write is the last one aliasing the `(5,5,5)` leaf in the
flush order, and it stores Air: the final map holds material 0 at the shared
path. -/
theorem evictMap_pstar : evictMap pstar = some 0 := by
  have hkey777 : path19 ⟨((7 : Nat) : Int), ((7 : Nat) : Int), ((7 : Nat) : Int)⟩
      = pstar := by decide
  have hmat777 : (chunk1.getVoxel
      ⟨((7 : Nat) : Int), ((7 : Nat) : Int), ((7 : Nat) : Int)⟩).materialID = 0 :=
    chunk1_material _ (by decide)
  rw [evictMap, chunkPositions, foldl_flatMap_eq, range64_eq,
    List.foldl_append, List.foldl_cons]
  refine @foldl_inv (List Nat → Option Nat) _ _ (fun f => f pstar = some 0) _ _ ?_ ?_
  · -- after the x = 7 slab the value at `pstar` is `some 0`
    rw [xyBlock, foldl_flatMap_eq, range64_eq, List.foldl_append,
      List.foldl_cons]
    refine @foldl_inv (List Nat → Option Nat) _ _ (fun f => f pstar = some 0) _ _ ?_ ?_
    · -- after the (x,y) = (7,7) row
      rw [zRow, List.foldl_map, range64_eq, List.foldl_append, List.foldl_cons]
      refine @foldl_inv (List Nat → Option Nat) _ _ (fun f => f pstar = some 0) _ _ ?_ ?_
      · -- the (7,7,7) write itself
        show evictStep _ _ pstar = some 0
        rw [evictStep, hkey777, hmat777]
        simp [updKey]
      · -- writes at z ≥ 8 never touch `pstar`
        intro acc b hb hP
        have hb8 := mem_tail56_ge8 b hb
        show evictStep acc _ pstar = some 0
        rw [evictStep]
        have hne : path19 ⟨((7 : Nat) : Int), ((7 : Nat) : Int), ((b : Nat) : Int)⟩
            ≠ pstar :=
          path19_ne_pstar_of_ge8 _ (Or.inr (Or.inr (by dsimp only; exact_mod_cast hb8)))
        simp only [updKey, if_neg (Ne.symm hne)]
        exact hP
    · -- rows at y ≥ 8 never touch `pstar`
      intro acc y hy hP
      have hy8 := mem_tail56_ge8 y hy
      rw [zRow, List.foldl_map]
      refine @foldl_inv (List Nat → Option Nat) _ _ (fun f => f pstar = some 0) _ _ hP ?_
      intro acc2 z _ hP2
      show evictStep acc2 _ pstar = some 0
      rw [evictStep]
      have hne : path19 ⟨((7 : Nat) : Int), ((y : Nat) : Int), ((z : Nat) : Int)⟩
          ≠ pstar :=
        path19_ne_pstar_of_ge8 _ (Or.inr (Or.inl (by dsimp only; exact_mod_cast hy8)))
      simp only [updKey, if_neg (Ne.symm hne)]
      exact hP2
  · -- slabs at x ≥ 8 never touch `pstar`
    intro acc x hx hP
    have hx8 := mem_tail56_ge8 x hx
    rw [xyBlock, foldl_flatMap_eq]
    refine @foldl_inv (List Nat → Option Nat) _ _ (fun f => f pstar = some 0) _ _ hP ?_
    intro acc2 y _ hP2
    rw [zRow, List.foldl_map]
    refine @foldl_inv (List Nat → Option Nat) _ _ (fun f => f pstar = some 0) _ _ hP2 ?_
    intro acc3 z _ hP3
    show evictStep acc3 _ pstar = some 0
    rw [evictStep]
    have hne : path19 ⟨((x : Nat) : Int), ((y : Nat) : Int), ((z : Nat) : Int)⟩
        ≠ pstar :=
      path19_ne_pstar_of_ge8 _ (Or.inl (by dsimp only; exact_mod_cast hx8))
    simp only [updKey, if_neg (Ne.symm hne)]
    exact hP3

/-- Away from the shared path, every flush write stores Air (the chunk holds
stone only at `(5,5,5)`, whose path is `pstar`). -/
theorem evictMap_zero :
    ∀ k m, k ≠ pstar → evictMap k = some m → m = 0 := by
  rw [evictMap]
  refine @foldl_inv (List Nat → Option Nat) _ _
    (fun f => ∀ k m, k ≠ pstar → f k = some m → m = 0) _ _ ?_ ?_
  · intro k m _ hk
    simp at hk
  · intro acc q _ hP k m hk hkm
    rw [evictStep] at hkm
    by_cases hkq : k = path19 q
    · subst hkq
      rw [updKey] at hkm
      have hm : (chunk1.getVoxel q).materialID = m := by simpa using hkm
      subst hm
      by_cases hm0 : (chunk1.getVoxel q).materialID = 0
      · exact hm0
      · exfalso
        have hq5 : q = ⟨5, 5, 5⟩ := chunk1_material_stone q hm0
        subst hq5
        exact hk rfl
    · rw [updKey] at hkm
      simp only [if_neg hkq] at hkm
      exact hP k m hk hkm

theorem init_sim : Sim (SparseVoxelOctree.init 20) (fun _ => none) := by
  refine ⟨rfl, rfl, ?_⟩
  exact models_fresh 20 _ _ ⟨rfl, rfl, rfl, rfl, rfl⟩ (fun _ => rfl)

theorem svo2_sim : Sim svo2 evictMap := by
  rw [show svo2 = chunkPositions.foldl
      (fun acc q => acc.setVoxel q (chunk1.getVoxel q))
      (SparseVoxelOctree.init 20) from storeChunkData_origin_zero _ _]
  show Sim _ (chunkPositions.foldl
    (fun acc q => updKey acc (path19 q) ((chunk1.getVoxel q).materialID))
    (fun _ => none))
  exact fold_store_sim chunk1.getVoxel chunkPositions _ _ init_sim
    chunkPositions_bounds

/-- `getVoxel` answers from the read-only descent `findGo` run from the
root over `maxDepth` levels. -/
theorem getVoxel_via_findGo (s : SparseVoxelOctree) (p : VoxelPos) :
    s.getVoxel p = voxelOfFind (findGo (getChildIndex p) s.maxDepth s.root) := by
  cases s with
  | mk root maxDepth worldSize =>
    unfold SparseVoxelOctree.getVoxel SparseVoxelOctree.findNode
    dsimp only
    cases findGo (getChildIndex p) maxDepth root <;> rfl

/-- After the eviction flush, every octree read reports Air: the stone stored
for `(5,5,5)` was overwritten inside the aliased leaf by the later air
write at `(7,7,7)`. -/
theorem svo2_all_air : ∀ p, (svo2.getVoxel p).materialID = 0 := by
  intro p
  obtain ⟨hmd, hws, hmod⟩ := svo2_sim
  have hget := findGo_models (getChildIndex p) (getChildIndex_lt8 p) 20
    (by omega) svo2.root evictMap hmod
  have hv : svo2.getVoxel p =
      voxelOfFind (findGo (getChildIndex p) 20 svo2.root) := by
    rw [getVoxel_via_findGo, hmd]
  rw [hv]
  cases hk : evictMap (pathFrom (getChildIndex p) 20) with
  | none => exact hget.2 hk
  | some m =>
    have hm : m = 0 := by
      by_cases hps : pathFrom (getChildIndex p) 20 = pstar
      · rw [hps, evictMap_pstar] at hk
        exact (Option.some.inj hk).symm
      · exact evictMap_zero _ m hps hk
    rw [hget.1 m hk, hm]
    rfl

theorem evict1_eq : evict1 =
    { nextId := 1
      chunkHeap := [(0, chunk1)]
      activeChunks := [(⟨0, 0, 0⟩, 0)]
      loadingQueue := [{ position := ⟨0, 0, 0⟩, chunkId := 0,
                         priority := Priority.URGENT }]
      svoStorage := SparseVoxelOctree.init 20 } := by
  unfold evict1
  rfl

theorem evict2_eq : evict2 =
    { nextId := 1
      chunkHeap := [(0, chunk1)]
      activeChunks := []
      loadingQueue := [{ position := ⟨0, 0, 0⟩, chunkId := 0,
                         priority := Priority.URGENT }]
      svoStorage := svo2 } := by
  unfold evict2
  rw [evict1_eq]
  rfl

theorem loadChunk_fresh (n : Nat) (hp : List (Nat × WorldChunk))
    (q : List ChunkLoadTask) (sv : SparseVoxelOctree) (pos : ChunkPos)
    (pr : Priority) :
    ManagerState.loadChunk ⟨n, hp, [], q, sv⟩ pos pr =
      ⟨n + 1, hp ++ [(n, WorldChunk.make pos)], [(pos, n)],
       q ++ [⟨pos, n, pr⟩], sv⟩ := rfl

theorem workerStep_head0 (n : Nat) (c0 c1 : WorldChunk)
    (ac : List (ChunkPos × Nat)) (rest : List ChunkLoadTask)
    (sv : SparseVoxelOctree) (pos : ChunkPos) (pr : Priority) :
    ManagerState.workerStep ⟨n, [(0, c0), (1, c1)], ac, ⟨pos, 0, pr⟩ :: rest, sv⟩ =
      ⟨n, [(0, (sv.loadChunkData pos c0).setState CState.ACTIVE), (1, c1)],
       ac, rest, sv⟩ := rfl

theorem workerStep_head1 (n : Nat) (c0 c1 : WorldChunk)
    (ac : List (ChunkPos × Nat)) (rest : List ChunkLoadTask)
    (sv : SparseVoxelOctree) (pos : ChunkPos) (pr : Priority) :
    ManagerState.workerStep ⟨n, [(0, c0), (1, c1)], ac, ⟨pos, 1, pr⟩ :: rest, sv⟩ =
      ⟨n, [(0, c0), (1, (sv.loadChunkData pos c1).setState CState.ACTIVE)],
       ac, rest, sv⟩ := rfl

theorem evict3_eq : evict3 =
    { nextId := 2
      chunkHeap := [(0, chunk1), (1, WorldChunk.make ⟨0, 0, 0⟩)]
      activeChunks := [(⟨0, 0, 0⟩, 1)]
      loadingQueue := [{ position := ⟨0, 0, 0⟩, chunkId := 0,
                         priority := Priority.URGENT },
                       { position := ⟨0, 0, 0⟩, chunkId := 1,
                         priority := Priority.NORMAL }]
      svoStorage := svo2 } := by
  unfold evict3
  rw [evict2_eq, loadChunk_fresh]
  rfl

theorem evict3w_eq : evict3.workerStep =
    { nextId := 2
      chunkHeap := [(0, evictLoaded1), (1, WorldChunk.make ⟨0, 0, 0⟩)]
      activeChunks := [(⟨0, 0, 0⟩, 1)]
      loadingQueue := [{ position := ⟨0, 0, 0⟩, chunkId := 1,
                         priority := Priority.NORMAL }]
      svoStorage := svo2 } := by
  rw [evict3_eq, workerStep_head0]
  rfl

theorem evict4_eq : evict4 =
    { nextId := 2
      chunkHeap := [(0, evictLoaded1), (1, evictLoaded2)]
      activeChunks := [(⟨0, 0, 0⟩, 1)]
      loadingQueue := []
      svoStorage := svo2 } := by
  unfold evict4
  rw [evict3w_eq, workerStep_head1]
  rfl

theorem evict4_chunk : evict4.getChunk ⟨0, 0, 0⟩ = some evictLoaded2 := by
  rw [evict4_eq]
  rfl

/-- C1 (code_bug evidence): running the eviction-durability scenario —
`setVoxel({5,5,5}, Voxel(STONE,255))`, `unloadChunk(ChunkPos(0,0,0))`,
`loadChunk(ChunkPos(0,0,0))`, and completion of both queued loads — the final
`getVoxel({5,5,5})` returns the Air voxel `Voxel(AIR,0)` instead of the
stored `Voxel(STONE,255)`: `getChildIndex` compares absolute coordinates
against the child size, so all of `{4..7}³` alias one octree leaf, and
`storeChunkData`'s later air write at `(7,7,7)` overwrites the flushed
stone. -/
theorem eviction_durability_failure :
    evict4.getVoxel ⟨5, 5, 5⟩ = Voxel.make AIR 0 ∧
    Voxel.make AIR 0 ≠ Voxel.make STONE 255 := by
  constructor
  · have hload : svo2.loadChunkData ⟨0, 0, 0⟩ (WorldChunk.make ⟨0, 0, 0⟩) =
        WorldChunk.make ⟨0, 0, 0⟩ :=
      loadChunkData_all_air _ _ _ svo2_all_air
    have hl2 : evictLoaded2 =
        (WorldChunk.make ⟨0, 0, 0⟩).setState CState.ACTIVE := by
      unfold evictLoaded2
      rw [hload]
    have hcp : ChunkPos.ofVoxel ⟨5, 5, 5⟩ CHUNK_SIZE = ⟨0, 0, 0⟩ := by decide
    unfold ManagerState.getVoxel
    dsimp only
    rw [hcp, evict4_chunk]
    dsimp only
    rw [hl2]
    decide
  · decide

end Procedurking
